import Mathlib

/-!
# Feedback service: dual-store consistency and asset streaming

A shallow embedding of the Go sources of the feedback service
(`internal/service/feedback.go`, `internal/repository/feedback.go`,
`internal/storage/minio.go`, `internal/grpc/server.go`).

Conventions of the embedding.

* A Go `[]byte` is a `List UInt8`.  A Go `string` holding a document body is
  the same byte sequence (Go strings are immutable byte sequences, and the
  conversions `[]byte(s)` and `string(b)` keep the bytes), so bodies are
  `Bytes` too and both conversions are the identity.  Identifiers, titles,
  object keys and file names are Lean `String`s.
* Go's `int64`, `int32` and `int` values are `Int`.  The only arithmetic on
  them is the offset of a page, `(page - 1) * limit` on `int`, which wraps
  around at 64 bits (`wrapInt64`), and the conversion `int32(x)`
  (`wrapInt32`).
* A loop that walks a slice in steps, the chunk loop of a download, takes the
  number of rounds it may make; it is run with the length of the slice, which
  is enough for it to reach the end.
* A handler that panics ends with the outcome `panic`; a handler during which
  the runtime kills the process, for want of memory, ends with the outcome
  `fatal`.  The buffer a handler asks for by `make` is granted up to the
  `memory` the machine has for it.
* A listing of the bucket gives the objects in the order of their keys and
  reports no content type for them, as the object store does.
* The two backends are explicit state: the rows of table `feedback_files` and
  the objects of the bucket.  Every call to a backend takes the outcome the
  backend chooses (an injected failure, or none); a failed call leaves the
  backend as it was.
* `context.Context` carries nothing the functions below look at and is
  dropped.
-/

namespace Feedback

/-- Byte slices (`[]byte`), also the bytes of a Go `string`. -/
abbrev Bytes := List UInt8

/-- An instant (`time.Time`), counted in nanoseconds since the Unix epoch. -/
abbrev Time := Int

/-- Seconds since the epoch: `time.Time.Unix`. -/
def Time.Unix (t : Time) : Int := t / 1000000000

/-- A signed 64-bit integer out of an integer: the wrap-around of Go's `int`
and `int64` arithmetic (`int` has 64 bits on the platforms the service is
built for). -/
def wrapInt64 (x : Int) : Int := (x + 2 ^ 63) % 2 ^ 64 - 2 ^ 63

/-- A signed 32-bit integer out of an integer: the conversion `int32(x)`. -/
def wrapInt32 (x : Int) : Int := (x + 2 ^ 31) % 2 ^ 32 - 2 ^ 31

/-- Go `error` values.  `eof` is the sentinel `io.EOF` (compared by identity in
the sources), `errorString` an error made by `errors.New`, by `fmt.Errorf`
without `%w`, or by a library, and `wrapError msg err` is
`fmt.Errorf(msg + ": %w", err)`. -/
inductive GoError where
  | eof
  | errorString (msg : String)
  | wrapError (msg : String) (err : GoError)
deriving DecidableEq, Repr

deriving instance DecidableEq for Except

/-- The text of an error: `err.Error()`. -/
def GoError.Error : GoError → String
  | .eof => "EOF"
  | .errorString msg => msg
  | .wrapError msg err => msg ++ ": " ++ err.Error

/-- What `errors.Unwrap` returns. -/
def GoError.Unwrap : GoError → Option GoError
  | .wrapError _ err => some err
  | _ => none

/-! ## crypto/sha256 and the `%x` verb -/

namespace sha256

/-- Rotate a 32-bit word right. -/
def rotr (x n : Nat) : Nat := ((x >>> n) ||| (x <<< (32 - n))) % 2 ^ 32

/-- Whether `n` is a prime number, by trial division. -/
def isPrime (n : Nat) : Bool := 2 ≤ n && (List.range n).all (fun d => d < 2 || n % d != 0)

/-- The first 64 prime numbers, 2 to 311. -/
def primes : List Nat := (List.range 312).filter isPrime

/-- The integer cube root of a number below `2 ^ 108`, built bit by bit. -/
def icbrt (n : Nat) : Nat :=
  (List.range 36).reverse.foldl (fun r i => if (r + 2 ^ i) ^ 3 ≤ n then r + 2 ^ i else r) 0

/-- Round constants: the first 32 bits of the fractional parts of the cube
roots of the first 64 primes. -/
def K : List Nat := primes.map (fun q => icbrt (q * 2 ^ 96) % 2 ^ 32)

/-- The integer square root of a number below `2 ^ 80`, built bit by bit. -/
def isqrt (n : Nat) : Nat :=
  (List.range 40).reverse.foldl (fun r i => if (r + 2 ^ i) ^ 2 ≤ n then r + 2 ^ i else r) 0

/-- Initial hash value: the first 32 bits of the fractional parts of the square
roots of the first 8 primes. -/
def init : List Nat := (primes.take 8).map (fun q => isqrt (q * 2 ^ 64) % 2 ^ 32)

/-- The padded message: the bytes, `0x80`, zeros up to 56 modulo 64, and the
bit length as a 64-bit big-endian number. -/
def pad (msg : List Nat) : List Nat :=
  let len := msg.length
  let zeros := (119 - len % 64) % 64
  let bits := (len * 8) % 2 ^ 64
  msg ++ [0x80] ++ List.replicate zeros 0 ++
    (List.range 8).map (fun i => (bits >>> (8 * (7 - i))) % 256)

/-- Big-endian 32-bit words of a byte list (whole words only). -/
def words : List Nat → List Nat
  | a :: b :: c :: d :: rest => (a * 2 ^ 24 + b * 2 ^ 16 + c * 2 ^ 8 + d) :: words rest
  | _ => []

/-- Extend the 16 words of a block by `n` further schedule words. -/
def schedule : Nat → List Nat → List Nat
  | 0, w => w
  | n + 1, w =>
    let t := w.length
    let w15 := w.getD (t - 15) 0
    let w2 := w.getD (t - 2) 0
    let s0 := rotr w15 7 ^^^ rotr w15 18 ^^^ (w15 >>> 3)
    let s1 := rotr w2 17 ^^^ rotr w2 19 ^^^ (w2 >>> 10)
    schedule n (w ++ [(w.getD (t - 16) 0 + s0 + w.getD (t - 7) 0 + s1) % 2 ^ 32])

/-- One round on the working variables `[a, b, c, d, e, f, g, h]`. -/
def round (v : List Nat) (kw : Nat × Nat) : List Nat :=
  match v with
  | [a, b, c, d, e, f, g, h] =>
    let S1 := rotr e 6 ^^^ rotr e 11 ^^^ rotr e 25
    let ch := (e &&& f) ^^^ ((e ^^^ 0xffffffff) &&& g)
    let t1 := (h + S1 + ch + kw.1 + kw.2) % 2 ^ 32
    let S0 := rotr a 2 ^^^ rotr a 13 ^^^ rotr a 22
    let maj := (a &&& b) ^^^ (a &&& c) ^^^ (b &&& c)
    let t2 := (S0 + maj) % 2 ^ 32
    [(t1 + t2) % 2 ^ 32, a, b, c, (d + t1) % 2 ^ 32, e, f, g]
  | _ => v

/-- Compress one 64-byte block into the hash state. -/
def block (h : List Nat) (bytes : List Nat) : List Nat :=
  let w := schedule 48 (words bytes)
  let v := (K.zip w).foldl round h
  (h.zip v).map (fun p => (p.1 + p.2) % 2 ^ 32)

/-- Fold the blocks of a padded message, `n` of them, into the state. -/
def blocks : Nat → List Nat → List Nat → List Nat
  | 0, h, _ => h
  | n + 1, h, bytes => blocks n (block h (bytes.take 64)) (bytes.drop 64)

/-- The digest: `sha256.Sum256(data)`, 32 bytes. -/
def Sum256 (data : Bytes) : Bytes :=
  let p := pad (data.map UInt8.toNat)
  let h := blocks (p.length / 64) init p
  (h.flatMap (fun w => [w >>> 24, (w >>> 16) % 256, (w >>> 8) % 256, w % 256])).map Nat.toUInt8

end sha256

/-- A lowercase hexadecimal digit. -/
def hexDigit (n : Nat) : Char :=
  if n < 10 then Char.ofNat (48 + n) else Char.ofNat (87 + n)

/-- The verb `%x` applied to a byte array: two lowercase hexadecimal digits per
byte, `fmt.Sprintf("%x", b)`. -/
def sprintfHex (b : Bytes) : String :=
  String.mk (b.flatMap (fun x => [hexDigit (x.toNat / 16), hexDigit (x.toNat % 16)]))

/-! ## internal/models -/

/-- The zero `time.Time` (January 1 of year 1, UTC). -/
def Time.zero : Time := -62135596800 * 1000000000

/-- A feedback document: `models.FeedbackFile`. -/
structure FeedbackFile where
  ID : String
  UserID : Int
  LabID : Int
  Title : String
  Content : Bytes
  ContentHash : String
  CreatedAt : Time
  UpdatedAt : Time
deriving DecidableEq, Repr

/-- The zero value `&models.FeedbackFile{}`. -/
def FeedbackFile.zero : FeedbackFile :=
  { ID := "", UserID := 0, LabID := 0, Title := "", Content := [], ContentHash := "",
    CreatedAt := Time.zero, UpdatedAt := Time.zero }

/-- Information about an uploaded asset: `models.AssetInfo`. -/
structure AssetInfo where
  Filename : String
  Size : Int
  ContentType : String
  UploadedAt : Time
deriving DecidableEq, Repr

/-! ## The relational backend: table `feedback_files`

The statements the repository sends, as functions on the rows of the table.
Each takes the failure the backend reports for that call, if any. -/

/-- A row of `feedback_files`, with the columns the repository's statements
name.  The body of a document is not a column. -/
structure Row where
  id : String
  user_id : Int
  lab_id : Int
  title : String
  content_hash : String
  created_at : Time
  updated_at : Time
deriving DecidableEq, Repr

/-- The rows of table `feedback_files`. -/
abbrev Table := List Row

/-- The sentinel `sql.ErrNoRows`, which `Scan` returns when the query has no row. -/
def ErrNoRows : GoError := .errorString "sql: no rows in result set"

/-- Modelled from the spec: the schema of `feedback_files` is not in the
sources; the spec makes `id` the relational primary key and lets `Create`
fail on a constraint violation.  This is the error of an insert whose `id`
is already in the table. -/
def ErrDuplicateKey : GoError :=
  .errorString "pq: duplicate key value violates unique constraint feedback_files_pkey"

/-- Statement `INSERT INTO feedback_files (...) VALUES ($1, $2, $3, $4, $5, NOW(), NOW())
RETURNING created_at, updated_at`. -/
def sqlInsert (db : Table) (now : Time) (fault : Option GoError)
    (id : String) (user_id lab_id : Int) (title content_hash : String) :
    Except GoError (Table × Time × Time) :=
  match fault with
  | some err => .error err
  | none =>
    if db.any (fun r => r.id == id) then .error ErrDuplicateKey
    else
      .ok (db ++ [{ id := id, user_id := user_id, lab_id := lab_id, title := title,
                    content_hash := content_hash, created_at := now, updated_at := now }],
           now, now)

/-- Statement `SELECT id, user_id, lab_id, title, content_hash, created_at, updated_at
FROM feedback_files WHERE id = $1`, read with `QueryRow(...).Scan`. -/
def sqlSelectByID (db : Table) (fault : Option GoError) (id : String) : Except GoError Row :=
  match fault with
  | some err => .error err
  | none =>
    match db.find? (fun r => r.id == id) with
    | some r => .ok r
    | none => .error ErrNoRows

/-- Statement `UPDATE feedback_files SET title = $2, content_hash = $3, updated_at = NOW()
WHERE id = $1 RETURNING updated_at`, read with `QueryRow(...).Scan`. -/
def sqlUpdate (db : Table) (now : Time) (fault : Option GoError)
    (id title content_hash : String) : Except GoError (Table × Time) :=
  match fault with
  | some err => .error err
  | none =>
    if db.any (fun r => r.id == id) then
      .ok (db.map (fun r =>
             if r.id == id then
               { r with title := title, content_hash := content_hash, updated_at := now }
             else r),
           now)
    else .error ErrNoRows

/-- Statement `DELETE FROM feedback_files WHERE id = $1`, with the number of rows affected. -/
def sqlDelete (db : Table) (fault : Option GoError) (id : String) : Except GoError (Table × Nat) :=
  match fault with
  | some err => .error err
  | none => .ok (db.filter (fun r => !(r.id == id)), (db.filter (fun r => r.id == id)).length)

/-! ## internal/repository -/

namespace FeedbackRepository

/-- Method `FeedbackRepository.Create`: the fresh identifier `uuid` is stored in the
record before the insert is sent; the timestamps are filled in on success. -/
def Create (db : Table) (uuid : String) (now : Time) (fault : Option GoError)
    (feedback : FeedbackFile) : FeedbackFile × Table × Option GoError :=
  let feedback := { feedback with ID := uuid }
  match sqlInsert db now fault feedback.ID feedback.UserID feedback.LabID feedback.Title
      feedback.ContentHash with
  | .error err => (feedback, db, some err)
  | .ok (db, created_at, updated_at) =>
    ({ feedback with CreatedAt := created_at, UpdatedAt := updated_at }, db, none)

/-- Method `FeedbackRepository.GetByID`: the record read from the row; `Content` keeps
its zero value. -/
def GetByID (db : Table) (fault : Option GoError) (id : String) : Except GoError FeedbackFile :=
  match sqlSelectByID db fault id with
  | .error err => .error err
  | .ok r =>
    .ok { FeedbackFile.zero with
          ID := r.id, UserID := r.user_id, LabID := r.lab_id, Title := r.title,
          ContentHash := r.content_hash, CreatedAt := r.created_at, UpdatedAt := r.updated_at }

/-- Method `FeedbackRepository.Update`. -/
def Update (db : Table) (now : Time) (fault : Option GoError) (feedback : FeedbackFile) :
    FeedbackFile × Table × Option GoError :=
  match sqlUpdate db now fault feedback.ID feedback.Title feedback.ContentHash with
  | .error err => (feedback, db, some err)
  | .ok (db, updated_at) => ({ feedback with UpdatedAt := updated_at }, db, none)

/-- Method `FeedbackRepository.Delete`. -/
def Delete (db : Table) (fault : Option GoError) (id : String) : Table × Option GoError :=
  match sqlDelete db fault id with
  | .error err => (db, some err)
  | .ok (db, rowsAffected) =>
    if rowsAffected == 0 then
      (db, some (.errorString ("feedback with id " ++ id ++ " not found")))
    else (db, none)

end FeedbackRepository

/-- What the outside supplies to one `ListByUserID`: the outcome of the count
query and of the page query. -/
structure ListEnv where
  countErr : Option GoError
  queryErr : Option GoError
deriving DecidableEq, Repr

/-- The rows the `WHERE` clause of `ListByUserID` keeps: those of the user,
and of the lab when `labID > 0`. -/
def whereClause (userID labID : Int) (r : Row) : Bool :=
  r.user_id == userID && (if labID > 0 then r.lab_id == labID else true)

/-- Clause `ORDER BY created_at DESC`: the rows by descending creation time;
rows created at the same instant keep their order in the table (the backend
is free in that order, this is one of its choices). -/
def orderByCreatedAtDesc (rows : List Row) : List Row :=
  rows.insertionSort (fun a b => b.created_at ≤ a.created_at)

/-- The order by descending creation time is total. -/
instance : IsTotal Row (fun a b => b.created_at ≤ a.created_at) :=
  ⟨fun a b => le_total b.created_at a.created_at⟩

/-- The order by descending creation time is transitive. -/
instance : IsTrans Row (fun a b => b.created_at ≤ a.created_at) :=
  ⟨fun _ _ _ hab hbc => le_trans hbc hab⟩

/-- Statement `SELECT COUNT(*) FROM feedback_files WHERE ...`. -/
def sqlCount (db : Table) (fault : Option GoError) (userID labID : Int) : Except GoError Int :=
  match fault with
  | some err => .error err
  | none => .ok ((db.filter (whereClause userID labID)).length : Int)

/-- Statement `SELECT ... FROM feedback_files WHERE ... ORDER BY created_at DESC
LIMIT $n OFFSET $m`.  The backend refuses a negative `LIMIT` and a negative
`OFFSET`. -/
def sqlSelectPage (db : Table) (fault : Option GoError) (userID labID limit offset : Int) :
    Except GoError (List Row) :=
  match fault with
  | some err => .error err
  | none =>
    if limit < 0 then .error (.errorString "pq: LIMIT must not be negative")
    else if offset < 0 then .error (.errorString "pq: OFFSET must not be negative")
    else
      .ok (((orderByCreatedAtDesc (db.filter (whereClause userID labID))).drop
        offset.toNat).take limit.toNat)

/-- The record `rows.Scan` fills from a row; `Content` keeps its zero value. -/
def scanRow (r : Row) : FeedbackFile :=
  { FeedbackFile.zero with
    ID := r.id, UserID := r.user_id, LabID := r.lab_id, Title := r.title,
    ContentHash := r.content_hash, CreatedAt := r.created_at, UpdatedAt := r.updated_at }

namespace FeedbackRepository

/-- Method `FeedbackRepository.ListByUserID`: the page of records and the
count of all matching records. -/
def ListByUserID (db : Table) (env : ListEnv) (userID labID offset limit : Int) :
    Except GoError (List FeedbackFile × Int) :=
  -- Count total records
  match sqlCount db env.countErr userID labID with
  | .error err => .error err
  | .ok totalCount =>
    -- Get paginated results
    match sqlSelectPage db env.queryErr userID labID limit offset with
    | .error err => .error err
    | .ok rows => .ok (rows.map scanRow, totalCount)

end FeedbackRepository

/-! ## The blob backend: one bucket of objects

What the object-storage client does, as functions on the objects of the
bucket. -/

/-- An object of the bucket: its key, its bytes, and the content type and
modification time the backend keeps with it. -/
structure StoredObject where
  Key : String
  Data : Bytes
  ContentType : String
  LastModified : Time
deriving DecidableEq, Repr

/-- The objects of the bucket. -/
abbrev Bucket := List StoredObject

/-- Whether `key` starts with `pfx`. -/
def startsWith (pfx key : String) : Bool := pfx.data.isPrefixOf key.data

/-- The client's `PutObject`: a full replace of the object at `key`. -/
def Bucket.putObject (b : Bucket) (now : Time) (key : String) (data : Bytes)
    (contentType : String) : Bucket :=
  b.filter (fun o => !(o.Key == key)) ++
    [{ Key := key, Data := data, ContentType := contentType, LastModified := now }]

/-- The object at `key`, if there is one. -/
def Bucket.lookup (b : Bucket) (key : String) : Option StoredObject :=
  b.find? (fun o => o.Key == key)

/-- The order in which the backend lists keys: the byte order of their UTF-8
form, which is the order of their code points, a key coming before the keys it
is a proper start of. -/
def keyLE : List Char → List Char → Bool
  | [], _ => true
  | _ :: _, [] => false
  | a :: as, b :: bs =>
    if a.toNat < b.toNat then true
    else if b.toNat < a.toNat then false
    else keyLE as bs

/-- The client's recursive `ListObjects`: the objects whose key starts with
`pfx`, in the order of their keys. -/
def Bucket.listObjects (b : Bucket) (pfx : String) : List StoredObject :=
  (b.filter (fun o => startsWith pfx o.Key)).insertionSort
    (fun x y => keyLE x.Key.data y.Key.data = true)

/-- The bucket without the objects at the given keys. -/
def Bucket.removeKeys (b : Bucket) (keys : List String) : Bucket :=
  b.filter (fun o => !(keys.contains o.Key))

/-- The error the backend gives for a key it does not hold. -/
def ErrNoSuchKey : GoError := .errorString "The specified key does not exist."

/-! ## internal/storage -/

/-- What a listing reports for an object: `storage.ObjectInfo`. -/
structure ObjectInfo where
  Key : String
  Size : Int
  ContentType : String
  LastModified : Time
deriving DecidableEq, Repr

/-- The listing entry of a stored object.  The answer of the backend to a
listing holds key, size and modification time of an object and not its content
type, so the `ContentType` the client reports for a listed object is empty. -/
def StoredObject.info (o : StoredObject) : ObjectInfo :=
  { Key := o.Key, Size := (o.Data.length : Int), ContentType := "",
    LastModified := o.LastModified }

namespace MinIOClient

/-- Method `MinIOClient.PutObject`. -/
def PutObject (b : Bucket) (now : Time) (fault : Option GoError) (objectKey : String)
    (data : Bytes) (contentType : String) : Bucket × Option GoError :=
  match fault with
  | some err => (b, some (.wrapError "failed to put object" err))
  | none => (b.putObject now objectKey data contentType, none)

/-- Method `MinIOClient.GetObject`.  The client's `GetObject` only checks the
names and sends nothing, so it returns no error for the keys of this service;
the request is made when the object is read: a failure `fault` of the request,
and a key the bucket does not hold, both show in `io.ReadAll`. -/
def GetObject (b : Bucket) (fault : Option GoError) (objectKey : String) : Except GoError Bytes :=
  match fault with
  | some err => .error (.wrapError "failed to read object data" err)
  | none =>
    match b.lookup objectKey with
    | some o => .ok o.Data
    | none => .error (.wrapError "failed to read object data" ErrNoSuchKey)

/-- Method `MinIOClient.RemoveObject`: removing a key the bucket does not hold succeeds. -/
def RemoveObject (b : Bucket) (fault : Option GoError) (objectKey : String) :
    Bucket × Option GoError :=
  match fault with
  | some err => (b, some (.wrapError "failed to remove object" err))
  | none => (b.removeKeys [objectKey], none)

/-- Method `MinIOClient.RemoveObjectsWithPrefix`.  The goroutine walks the listing of
`pfx` and hands each object to the removal; when the listing reports an error,
after `n` objects for `listErrAfter = some n`, the goroutine returns and closes
the channel, so only the objects listed before the error are handed over.  Of
the objects handed over, those whose removal the backend refuses
(`removeErr key = some err`) stay; the first refusal is the error returned,
and without a refusal the result is `nil`.  The two goroutines are run one
after the other: the removals the client still performs after the first
refusal count as performed. -/
def RemoveObjectsWithPrefix (b : Bucket) (listErrAfter : Option Nat)
    (removeErr : String → Option GoError) (pfx : String) : Bucket × Option GoError :=
  let listed := b.listObjects pfx
  let objectsCh :=
    match listErrAfter with
    | none => listed
    | some n => listed.take n
  let removed := (objectsCh.filter (fun o => (removeErr o.Key).isNone)).map (fun o => o.Key)
  let rErr := objectsCh.findSome? (fun o =>
    (removeErr o.Key).map (fun err => GoError.wrapError ("failed to remove object " ++ o.Key) err))
  (b.removeKeys removed, rErr)

/-- Method `MinIOClient.ListObjects`: a listing that reports an error gives no objects. -/
def ListObjects (b : Bucket) (fault : Option GoError) (pfx : String) :
    Except GoError (List ObjectInfo) :=
  match fault with
  | some err => .error (.wrapError "failed to list objects" err)
  | none => .ok ((b.listObjects pfx).map StoredObject.info)

/-- What `GetFileInfo` and `ListFiles` report for a file of a document. -/
structure FileInfo where
  Filename : String
  Size : Int
  ContentType : String
  LastModified : Time
deriving DecidableEq, Repr

/-- Modelled from the spec: the object key of file `path` of document
`feedbackID`.  The helpers `UploadFile`, `DownloadFile`, `GetFileInfo`,
`ListFiles` and `DeleteFolder` that the service calls are not in the sources;
the spec stores the body under `<id>/content.md` and an asset under
`<feedbackId>/assets/<filename>`. -/
def objectKey (feedbackID path : String) : String := feedbackID ++ "/" ++ path

/-- Modelled from the spec: `UploadFile` is missing from the sources; it puts
`data` at the key of file `path` of the document, a full replace. -/
def UploadFile (b : Bucket) (now : Time) (fault : Option GoError)
    (feedbackID path contentType : String) (data : Bytes) : Bucket × Option GoError :=
  PutObject b now fault (objectKey feedbackID path) data contentType

/-- Modelled from the spec: `DownloadFile` is missing from the sources; it gets
the bytes at the key of file `path` of the document and fails if the object is
absent. -/
def DownloadFile (b : Bucket) (fault : Option GoError) (feedbackID path : String) :
    Except GoError Bytes :=
  GetObject b fault (objectKey feedbackID path)

/-- Modelled from the spec: `GetFileInfo` is missing from the sources; it asks
the backend for size, content type and modification time of the object of file
`path` of the document and fails if the object is absent. -/
def GetFileInfo (b : Bucket) (fault : Option GoError) (feedbackID path : String) :
    Except GoError FileInfo :=
  match fault with
  | some err => .error err
  | none =>
    match b.lookup (objectKey feedbackID path) with
    | some o =>
      .ok { Filename := path, Size := (o.Data.length : Int), ContentType := o.ContentType,
            LastModified := o.LastModified }
    | none => .error ErrNoSuchKey

/-- Modelled from the spec: `ListFiles` is missing from the sources; it lists
the objects under the key of directory `dir` of the document, recursively, and
names each by its key after that key prefix. -/
def ListFiles (b : Bucket) (fault : Option GoError) (feedbackID dir : String) :
    Except GoError (List FileInfo) :=
  match ListObjects b fault (objectKey feedbackID dir) with
  | .error err => .error err
  | .ok objects =>
    .ok (objects.map (fun o =>
      { Filename := String.mk (o.Key.data.drop (objectKey feedbackID dir).data.length),
        Size := o.Size, ContentType := o.ContentType, LastModified := o.LastModified }))

/-- Modelled from the spec: `DeleteFolder` is missing from the sources; it
deletes the whole key prefix `<id>/` of the document, body and assets, through
`RemoveObjectsWithPrefix`. -/
def DeleteFolder (b : Bucket) (listErrAfter : Option Nat) (removeErr : String → Option GoError)
    (feedbackID : String) : Bucket × Option GoError :=
  RemoveObjectsWithPrefix b listErrAfter removeErr (feedbackID ++ "/")

end MinIOClient

/-! ## internal/service -/

/-- The two backends the service works on. -/
structure Stores where
  db : Table
  bucket : Bucket
deriving DecidableEq, Repr

/-- Parameters of `CreateFeedback`: `service.CreateFeedbackParams`. -/
structure CreateFeedbackParams where
  UserID : Int
  LabID : Int
  Title : String
  Content : Bytes
  ContentHash : String
deriving DecidableEq, Repr

/-- Parameters of `UpdateFeedback`: `service.UpdateFeedbackParams`. -/
structure UpdateFeedbackParams where
  ID : String
  Title : String
  Content : Bytes
  ContentHash : String
deriving DecidableEq, Repr

/-- What the outside supplies to one `CreateFeedback`: the fresh identifier,
the clocks of the two backends, and the outcome of each backend call. -/
structure CreateEnv where
  uuid : String
  dbNow : Time
  blobNow : Time
  createErr : Option GoError
  uploadErr : Option GoError
  deleteErr : Option GoError
deriving DecidableEq, Repr

/-- What the outside supplies to one `GetFeedback`. -/
structure GetEnv where
  queryErr : Option GoError
  downloadErr : Option GoError
deriving DecidableEq, Repr

/-- What the outside supplies to one `UpdateFeedback`. -/
structure UpdateEnv where
  dbNow : Time
  blobNow : Time
  queryErr : Option GoError
  updateErr : Option GoError
  uploadErr : Option GoError
deriving DecidableEq, Repr

/-- What the outside supplies to one `DeleteFeedback`: the outcome of the
listing, of each removal, and of the relational delete. -/
structure DeleteEnv where
  listErrAfter : Option Nat
  removeErr : String → Option GoError
  deleteErr : Option GoError

/-- What the outside supplies to one `UploadAsset`. -/
structure UploadEnv where
  blobNow : Time
  uploadErr : Option GoError
deriving DecidableEq, Repr

/-- What the outside supplies to one `DownloadAsset`. -/
structure DownloadEnv where
  downloadErr : Option GoError
  infoErr : Option GoError
deriving DecidableEq, Repr

namespace FeedbackService

/-- Method `FeedbackService.CreateFeedback`. -/
def CreateFeedback (s : Stores) (env : CreateEnv) (params : CreateFeedbackParams) :
    Except GoError FeedbackFile × Stores :=
  let feedback : FeedbackFile :=
    { FeedbackFile.zero with
      UserID := params.UserID, LabID := params.LabID, Title := params.Title,
      Content := params.Content, ContentHash := params.ContentHash }
  -- Save metadata to database
  match FeedbackRepository.Create s.db env.uuid env.dbNow env.createErr feedback with
  | (_, _, some err) => (.error (.wrapError "failed to create feedback in database" err), s)
  | (feedback, db, none) =>
    -- Save content to MinIO
    match MinIOClient.UploadFile s.bucket env.blobNow env.uploadErr feedback.ID "content.md"
        "text/markdown" params.Content with
    | (bucket, some err) =>
      -- Rollback database record if MinIO upload fails; the result of Delete is dropped
      let db := (FeedbackRepository.Delete db env.deleteErr feedback.ID).1
      (.error (.wrapError "failed to upload content to storage" err), { db := db, bucket := bucket })
    | (bucket, none) => (.ok feedback, { db := db, bucket := bucket })

/-- Method `FeedbackService.GetFeedback`. -/
def GetFeedback (s : Stores) (env : GetEnv) (id : String) : Except GoError FeedbackFile × Stores :=
  -- Get metadata from database
  match FeedbackRepository.GetByID s.db env.queryErr id with
  | .error err => (.error (.wrapError "failed to get feedback metadata" err), s)
  | .ok feedback =>
    -- Get content from MinIO
    match MinIOClient.DownloadFile s.bucket env.downloadErr id "content.md" with
    | .error err => (.error (.wrapError "failed to download content from storage" err), s)
    | .ok content => (.ok { feedback with Content := content }, s)

/-- Method `FeedbackService.UpdateFeedback`. -/
def UpdateFeedback (s : Stores) (env : UpdateEnv) (params : UpdateFeedbackParams) :
    Except GoError FeedbackFile × Stores :=
  -- Get existing feedback
  match FeedbackRepository.GetByID s.db env.queryErr params.ID with
  | .error err => (.error (.wrapError "failed to get existing feedback" err), s)
  | .ok feedback =>
    -- Update fields if provided
    let feedback := if params.Title != "" then { feedback with Title := params.Title } else feedback
    let feedback :=
      if params.Content != [] then
        { feedback with Content := params.Content, ContentHash := params.ContentHash }
      else feedback
    -- Update database
    match FeedbackRepository.Update s.db env.dbNow env.updateErr feedback with
    | (_, _, some err) => (.error (.wrapError "failed to update feedback in database" err), s)
    | (feedback, db, none) =>
      -- Update content in MinIO if provided
      if params.Content != [] then
        match MinIOClient.UploadFile s.bucket env.blobNow env.uploadErr feedback.ID "content.md"
            "text/markdown" params.Content with
        | (bucket, some err) =>
          (.error (.wrapError "failed to update content in storage" err),
           { db := db, bucket := bucket })
        | (bucket, none) => (.ok feedback, { db := db, bucket := bucket })
      else (.ok feedback, { db := db, bucket := s.bucket })

/-- Method `FeedbackService.DeleteFeedback`. -/
def DeleteFeedback (s : Stores) (env : DeleteEnv) (id : String) : Option GoError × Stores :=
  -- Delete from MinIO first (folder and all assets)
  match MinIOClient.DeleteFolder s.bucket env.listErrAfter env.removeErr id with
  | (bucket, some err) =>
    (some (.wrapError "failed to delete content from storage" err), { db := s.db, bucket := bucket })
  | (bucket, none) =>
    -- Delete from database
    match FeedbackRepository.Delete s.db env.deleteErr id with
    | (db, some err) =>
      (some (.wrapError "failed to delete feedback from database" err),
       { db := db, bucket := bucket })
    | (db, none) => (none, { db := db, bucket := bucket })

/-- Method `FeedbackService.UploadAsset`. -/
def UploadAsset (s : Stores) (env : UploadEnv) (feedbackID filename contentType : String)
    (data : Bytes) : Except GoError Int × Stores :=
  let assetPath := "assets/" ++ filename
  match MinIOClient.UploadFile s.bucket env.blobNow env.uploadErr feedbackID assetPath contentType
      data with
  | (bucket, some err) =>
    (.error (.wrapError "failed to upload asset" err), { db := s.db, bucket := bucket })
  | (bucket, none) => (.ok (data.length : Int), { db := s.db, bucket := bucket })

/-- Method `FeedbackService.DownloadAsset`. -/
def DownloadAsset (s : Stores) (env : DownloadEnv) (feedbackID filename : String) :
    Except GoError (AssetInfo × Bytes) × Stores :=
  let assetPath := "assets/" ++ filename
  match MinIOClient.DownloadFile s.bucket env.downloadErr feedbackID assetPath with
  | .error err => (.error (.wrapError "failed to download asset" err), s)
  | .ok data =>
    -- Get asset info
    match MinIOClient.GetFileInfo s.bucket env.infoErr feedbackID assetPath with
    | .error err => (.error (.wrapError "failed to get asset info" err), s)
    | .ok info =>
      (.ok ({ Filename := filename, Size := info.Size, ContentType := info.ContentType,
              UploadedAt := info.LastModified }, data), s)

/-- Method `FeedbackService.ListAssets`. -/
def ListAssets (s : Stores) (listErr : Option GoError) (feedbackID : String) :
    Except GoError (List AssetInfo) × Stores :=
  match MinIOClient.ListFiles s.bucket listErr feedbackID "assets/" with
  | .error err => (.error (.wrapError "failed to list assets" err), s)
  | .ok files =>
    (.ok (files.map (fun file =>
      { Filename := file.Filename, Size := file.Size, ContentType := file.ContentType,
        UploadedAt := file.LastModified })), s)

end FeedbackService

/-- Parameters of `ListUserFeedbacks`: `service.ListUserFeedbacksParams`; `Page`
and `Limit` are Go `int`s. -/
structure ListUserFeedbacksParams where
  UserID : Int
  LabID : Int
  Page : Int
  Limit : Int
deriving DecidableEq, Repr

namespace FeedbackService

/-- The offset and the limit `ListUserFeedbacks` passes to the repository:
the defaults are set first, then the offset is computed in `int` arithmetic. -/
def pagination (params : ListUserFeedbacksParams) : Int × Int :=
  -- Set default pagination
  let limit := if params.Limit ≤ 0 then 20 else params.Limit
  let page := if params.Page ≤ 0 then 1 else params.Page
  let offset := wrapInt64 (wrapInt64 (page - 1) * limit)
  (offset, limit)

/-- Method `FeedbackService.ListUserFeedbacks`. -/
def ListUserFeedbacks (s : Stores) (env : ListEnv) (params : ListUserFeedbacksParams) :
    Except GoError (List FeedbackFile × Int) × Stores :=
  let (offset, limit) := pagination params
  (FeedbackRepository.ListByUserID s.db env params.UserID params.LabID offset limit, s)

end FeedbackService

/-! ## internal/grpc

The generated package `proto` is not in the sources; its messages are given
here with the fields the server reads and writes. -/

namespace proto

/-- Message `FeedbackFile`. -/
structure FeedbackFile where
  Id : String
  UserId : Int
  LabId : Int
  Title : String
  Content : Bytes
  ContentHash : String
  CreatedAt : Int
  UpdatedAt : Int
deriving DecidableEq, Repr

/-- Message `CreateFeedbackRequest`. -/
structure CreateFeedbackRequest where
  UserId : Int
  LabId : Int
  Title : String
  Content : Bytes
deriving DecidableEq, Repr

/-- Message `UpdateFeedbackRequest`. -/
structure UpdateFeedbackRequest where
  Id : String
  Title : String
  Content : Bytes
deriving DecidableEq, Repr

/-- The metadata frame of an upload. -/
structure AssetMetadata where
  FeedbackId : String
  Filename : String
  ContentType : String
  TotalSize : Int
deriving DecidableEq, Repr

/-- Message `UploadAssetRequest`: a frame holding metadata, a chunk, or neither. -/
inductive UploadAssetRequest where
  | Metadata (metadata : AssetMetadata)
  | Chunk (chunk : Bytes)
  | unset
deriving DecidableEq, Repr

/-- The metadata of a frame, `nil` for any other frame. -/
def UploadAssetRequest.GetMetadata : UploadAssetRequest → Option AssetMetadata
  | .Metadata metadata => some metadata
  | _ => none

/-- The chunk of a frame, `nil` for any other frame. -/
def UploadAssetRequest.GetChunk : UploadAssetRequest → Option Bytes
  | .Chunk chunk => some chunk
  | _ => none

/-- Message `UploadAssetResponse`. -/
structure UploadAssetResponse where
  Filename : String
  Size : Int
  Success : Bool
deriving DecidableEq, Repr

/-- Message `ListUserFeedbacksRequest`; `Page` and `Limit` are `int32` fields. -/
structure ListUserFeedbacksRequest where
  UserId : Int
  LabId : Int
  Page : Int
  Limit : Int
deriving DecidableEq, Repr

/-- Message `ListUserFeedbacksResponse`; `TotalCount` is an `int32` field. -/
structure ListUserFeedbacksResponse where
  Feedbacks : List FeedbackFile
  TotalCount : Int
deriving DecidableEq, Repr

/-- Message `AssetInfo`. -/
structure AssetInfo where
  Filename : String
  Size : Int
  ContentType : String
  UploadedAt : Int
deriving DecidableEq, Repr

/-- Message `DownloadAssetRequest`. -/
structure DownloadAssetRequest where
  FeedbackId : String
  Filename : String
deriving DecidableEq, Repr

/-- Message `DownloadAssetResponse`: a frame holding the asset info or a chunk. -/
inductive DownloadAssetResponse where
  | Info (info : AssetInfo)
  | Chunk (chunk : Bytes)
deriving DecidableEq, Repr

end proto

/-- The message built from a record, as each handler builds it. -/
def toProto (feedback : FeedbackFile) : proto.FeedbackFile :=
  { Id := feedback.ID, UserId := feedback.UserID, LabId := feedback.LabID,
    Title := feedback.Title, Content := feedback.Content, ContentHash := feedback.ContentHash,
    CreatedAt := feedback.CreatedAt.Unix, UpdatedAt := feedback.UpdatedAt.Unix }

/-- What a handler leaves behind: its result, the backends, and the lines it
logged. -/
structure Reply (ρ : Type) where
  result : ρ
  stores : Stores
  log : List String

/-- How a handler that can panic ends: with a response, with an error, with a
panic of its goroutine, or with the process killed by a fatal error of the
runtime. -/
inductive Outcome (α : Type) where
  | ok (a : α)
  | error (err : GoError)
  | panic (msg : String)
  | fatal (msg : String)
deriving DecidableEq, Repr

/-- The client side of an upload: the frames `Recv` returns, in order, and the
error it returns once they are used up, `io.EOF` for a graceful end. -/
structure UploadStream where
  frames : List proto.UploadAssetRequest
  ending : GoError
deriving DecidableEq, Repr

/-- What the outside supplies to one streamed upload: the outcome of the put,
the outcome of the reply, and `memory`, the largest buffer in bytes that the
machine grants the runtime when the handler asks for it. -/
structure UploadStreamEnv where
  upload : UploadEnv
  sendErr : Option GoError
  memory : Int
deriving DecidableEq, Repr

/-- The largest allocation the Go runtime accepts on a 64-bit platform, in
bytes; `make` panics for a capacity beyond it.  A capacity within it is asked
of the machine, and the runtime kills the process when the machine does not
grant it. -/
def maxAlloc : Int := 2 ^ 48

/-- What a download leaves behind: its error if any, the frames it sent, the
backends, and the lines it logged. -/
structure DownloadReply where
  result : Option GoError
  sent : List proto.DownloadAssetResponse
  stores : Stores
  log : List String

/-- What the outside supplies to one streamed download: the outcomes of the
backend calls and of each call of `stream.Send`, counted from 0. -/
structure DownloadStreamEnv where
  download : DownloadEnv
  sendErr : Nat → Option GoError

namespace FeedbackGRPCServer

/-- Method `FeedbackGRPCServer.CreateFeedback`. -/
def CreateFeedback (s : Stores) (env : CreateEnv) (req : proto.CreateFeedbackRequest) :
    Reply (Except GoError proto.FeedbackFile) :=
  -- Calculate content hash
  let contentHash := sprintfHex (sha256.Sum256 req.Content)
  match FeedbackService.CreateFeedback s env
      { UserID := req.UserId, LabID := req.LabId, Title := req.Title, Content := req.Content,
        ContentHash := contentHash } with
  | (.error err, s) =>
    { result := .error err, stores := s, log := ["Failed to create feedback: " ++ err.Error] }
  | (.ok feedback, s) => { result := .ok (toProto feedback), stores := s, log := [] }

/-- Method `FeedbackGRPCServer.GetFeedback`. -/
def GetFeedback (s : Stores) (env : GetEnv) (id : String) :
    Reply (Except GoError proto.FeedbackFile) :=
  match FeedbackService.GetFeedback s env id with
  | (.error err, s) =>
    { result := .error err, stores := s, log := ["Failed to get feedback: " ++ err.Error] }
  | (.ok feedback, s) => { result := .ok (toProto feedback), stores := s, log := [] }

/-- Method `FeedbackGRPCServer.UpdateFeedback`. -/
def UpdateFeedback (s : Stores) (env : UpdateEnv) (req : proto.UpdateFeedbackRequest) :
    Reply (Except GoError proto.FeedbackFile) :=
  let contentHash := if req.Content != [] then sprintfHex (sha256.Sum256 req.Content) else ""
  match FeedbackService.UpdateFeedback s env
      { ID := req.Id, Title := req.Title, Content := req.Content, ContentHash := contentHash } with
  | (.error err, s) =>
    { result := .error err, stores := s, log := ["Failed to update feedback: " ++ err.Error] }
  | (.ok feedback, s) => { result := .ok (toProto feedback), stores := s, log := [] }

/-- Method `FeedbackGRPCServer.DeleteFeedback`; the result is the `Success` flag. -/
def DeleteFeedback (s : Stores) (env : DeleteEnv) (id : String) : Reply (Except GoError Bool) :=
  match FeedbackService.DeleteFeedback s env id with
  | (some err, s) =>
    { result := .error err, stores := s, log := ["Failed to delete feedback: " ++ err.Error] }
  | (none, s) => { result := .ok true, stores := s, log := [] }

/-- The loop of `UploadAsset` that receives the chunks: every frame with a
chunk is appended to the buffer, `io.EOF` ends the loop, any other error of
`Recv` is returned. -/
def recvChunks (buffer : Bytes) : List proto.UploadAssetRequest → GoError → Except GoError Bytes
  | [], ending => if ending = GoError.eof then .ok buffer else .error ending
  | req :: rest, ending =>
    match req.GetChunk with
    | some chunk => recvChunks (buffer ++ chunk) rest ending
    | none => recvChunks buffer rest ending

/-- Method `FeedbackGRPCServer.UploadAsset`.  `make([]byte, 0, totalSize)` panics for
a negative capacity and for one beyond `maxAlloc`, and ends the process with
the fatal error `out of memory` for a capacity the machine does not grant. -/
def UploadAsset (s : Stores) (env : UploadStreamEnv) (stream : UploadStream) :
    Reply (Outcome proto.UploadAssetResponse) :=
  -- Receive first message with metadata
  match stream.frames with
  | [] => { result := .error stream.ending, stores := s, log := [] }
  | req :: rest =>
    match req.GetMetadata with
    | none =>
      { result := .error (.errorString "first message must contain metadata"), stores := s,
        log := [] }
    | some metadata =>
      let totalSize := metadata.TotalSize
      if totalSize < 0 ∨ maxAlloc < totalSize then
        { result := .panic "runtime error: makeslice: cap out of range", stores := s, log := [] }
      else if env.memory < totalSize then
        { result := .fatal "fatal error: runtime: out of memory", stores := s, log := [] }
      else
        -- Receive file chunks
        match recvChunks [] rest stream.ending with
        | .error err => { result := .error err, stores := s, log := [] }
        | .ok buffer =>
          -- Upload to MinIO
          match FeedbackService.UploadAsset s env.upload metadata.FeedbackId metadata.Filename
              metadata.ContentType buffer with
          | (.error err, s) =>
            { result := .error err, stores := s, log := ["Failed to upload asset: " ++ err.Error] }
          | (.ok size, s) =>
            match env.sendErr with
            | some err => { result := .error err, stores := s, log := [] }
            | none =>
              { result := .ok { Filename := metadata.Filename, Size := size, Success := true },
                stores := s, log := [] }

/-- Method `FeedbackGRPCServer.ListUserFeedbacks`: `int(req.Page)` and
`int(req.Limit)` keep the value, `int32(totalCount)` wraps. -/
def ListUserFeedbacks (s : Stores) (env : ListEnv) (req : proto.ListUserFeedbacksRequest) :
    Reply (Except GoError proto.ListUserFeedbacksResponse) :=
  match FeedbackService.ListUserFeedbacks s env
      { UserID := req.UserId, LabID := req.LabId, Page := req.Page, Limit := req.Limit } with
  | (.error err, s) =>
    { result := .error err, stores := s, log := ["Failed to list user feedbacks: " ++ err.Error] }
  | (.ok (feedbacks, totalCount), s) =>
    { result := .ok { Feedbacks := feedbacks.map toProto, TotalCount := wrapInt32 totalCount },
      stores := s, log := [] }

/-- The results of the calls of `stream.Recv` that `UploadAsset` makes, in
order: the first call, and, once the metadata is read and the buffer made, one
call for each further frame and the call that finds the stream ended. -/
def recvResults (env : UploadStreamEnv) (stream : UploadStream) :
    List (Except GoError proto.UploadAssetRequest) :=
  match stream.frames with
  | [] => [.error stream.ending]
  | req :: rest =>
    match req.GetMetadata with
    | none => [.ok req]
    | some metadata =>
      if metadata.TotalSize < 0 ∨ maxAlloc < metadata.TotalSize then [.ok req]
      else if env.memory < metadata.TotalSize then [.ok req]
      else .ok req :: (rest.map Except.ok ++ [.error stream.ending])

/-- The size of a chunk of a download, 64 KiB. -/
def chunkSize : Nat := 1024 * 64

/-- The slice expression `data[i:j]`. -/
def slice (data : Bytes) (i j : Nat) : Bytes := (data.take j).drop i

/-- The loop of `DownloadAsset` that sends the chunks, from offset `i`, as the
call number `sent` of `stream.Send` and the following ones: the frames sent,
and the error of the first `Send` that fails.  `fuel` bounds the number of
rounds. -/
def sendChunks (sendErr : Nat → Option GoError) (data : Bytes) :
    Nat → Nat → Nat → List proto.DownloadAssetResponse × Option GoError
  | 0, _, _ => ([], none)
  | fuel + 1, i, sent =>
    if i < data.length then
      let stop := if i + chunkSize > data.length then data.length else i + chunkSize
      match sendErr sent with
      | some err => ([], some err)
      | none =>
        let rest := sendChunks sendErr data fuel (i + chunkSize) (sent + 1)
        (.Chunk (slice data i stop) :: rest.1, rest.2)
    else ([], none)

/-- Method `FeedbackGRPCServer.DownloadAsset`. -/
def DownloadAsset (s : Stores) (env : DownloadStreamEnv) (req : proto.DownloadAssetRequest) :
    DownloadReply :=
  match FeedbackService.DownloadAsset s env.download req.FeedbackId req.Filename with
  | (.error err, s) =>
    { result := some err, sent := [], stores := s,
      log := ["Failed to download asset: " ++ err.Error] }
  | (.ok (assetInfo, data), s) =>
    -- Send asset info first
    match env.sendErr 0 with
    | some err => { result := some err, sent := [], stores := s, log := [] }
    | none =>
      -- Send file data in chunks; a round sends at least one byte, so one round
      -- of fuel for each byte is more than the loop uses
      let chunks := sendChunks env.sendErr data data.length 0 1
      { result := chunks.2,
        sent := .Info { Filename := assetInfo.Filename, Size := assetInfo.Size,
                        ContentType := assetInfo.ContentType,
                        UploadedAt := assetInfo.UploadedAt.Unix } :: chunks.1,
        stores := s, log := [] }

end FeedbackGRPCServer

/-! ## Definitions used in the statements -/

/-- The bytes of an ASCII text. -/
def ascii (text : String) : Bytes := text.data.map (fun c => c.toNat.toUInt8)

/-- The parameters the gRPC layer hands to the service's `CreateFeedback`. -/
def createParams (req : proto.CreateFeedbackRequest) : CreateFeedbackParams :=
  { UserID := req.UserId, LabID := req.LabId, Title := req.Title, Content := req.Content,
    ContentHash := sprintfHex (sha256.Sum256 req.Content) }

/-- The parameters the gRPC layer hands to the service's `UpdateFeedback`. -/
def updateParams (req : proto.UpdateFeedbackRequest) : UpdateFeedbackParams :=
  { ID := req.Id, Title := req.Title, Content := req.Content,
    ContentHash := if req.Content != [] then sprintfHex (sha256.Sum256 req.Content) else "" }

/-- The row `CreateFeedback` inserts. -/
def createdRow (env : CreateEnv) (params : CreateFeedbackParams) : Row :=
  { id := env.uuid, user_id := params.UserID, lab_id := params.LabID, title := params.Title,
    content_hash := params.ContentHash, created_at := env.dbNow, updated_at := env.dbNow }

/-- The title `UpdateFeedback` stores over the title `old`. -/
def newTitle (params : UpdateFeedbackParams) (old : String) : String :=
  if params.Title != "" then params.Title else old

/-- The content hash `UpdateFeedback` stores over the hash `old`. -/
def newHash (params : UpdateFeedbackParams) (old : String) : String :=
  if params.Content != [] then params.ContentHash else old

/-- The table after the `UPDATE` statement of `UpdateFeedback` on a document
whose row was `r`. -/
def updatedTable (db : Table) (now : Time) (params : UpdateFeedbackParams) (r : Row) : Table :=
  db.map (fun x =>
    if x.id == params.ID then
      { x with title := newTitle params r.title, content_hash := newHash params r.content_hash,
               updated_at := now }
    else x)

/-- The bucket after `UpdateFeedback`: the body is put only for a non-empty
content. -/
def updatedBucket (b : Bucket) (now : Time) (params : UpdateFeedbackParams) : Bucket :=
  if params.Content != [] then
    b.putObject now (MinIOClient.objectKey params.ID "content.md") params.Content "text/markdown"
  else b

/-- The listing entry `ListAssets` builds for an object under the key prefix
`dir`; the content type of a listed object is empty. -/
def assetEntry (dir : String) (o : StoredObject) : AssetInfo :=
  { Filename := String.mk (o.Key.data.drop dir.data.length), Size := (o.Data.length : Int),
    ContentType := "", UploadedAt := o.LastModified }

/-- The chunk frame number `k` of the chunk loop of a download started at
offset `i`: the bytes from `i + k * 65536` up to `i + (k + 1) * 65536`, or to
the end of the payload. -/
def chunkFrame (data : Bytes) (i k : Nat) : proto.DownloadAssetResponse :=
  .Chunk (FeedbackGRPCServer.slice data (i + k * 65536) (min (i + (k + 1) * 65536) data.length))

/-! ## Sample inputs -/

/-- An empty table and an empty bucket. -/
def emptyStores : Stores := { db := [], bucket := [] }

/-- The row of `doc-1` in `oneDoc`. -/
def oneDocRow : Row :=
  { id := "doc-1", user_id := 7, lab_id := 3, title := "notes",
    content_hash := "8f434346648f6b96df89dda901c5176b10a6d83961dd3c1ac88b59b2dc327aa4",
    created_at := 1000, updated_at := 1000 }

/-- One document `doc-1` with body `hi` and one asset `a.png` of three bytes. -/
def oneDoc : Stores :=
  { db := [{ id := "doc-1", user_id := 7, lab_id := 3, title := "notes",
             content_hash := "8f434346648f6b96df89dda901c5176b10a6d83961dd3c1ac88b59b2dc327aa4",
             created_at := 1000, updated_at := 1000 }],
    bucket := [{ Key := "doc-1/content.md", Data := [104, 105], ContentType := "text/markdown",
                 LastModified := 1001 },
               { Key := "doc-1/assets/a.png", Data := [1, 2, 3], ContentType := "image/png",
                 LastModified := 1002 }] }

/-- A create request: owner 7, lab 3, title `notes`, body `hi`. -/
def sampleCreate : proto.CreateFeedbackRequest :=
  { UserId := 7, LabId := 3, Title := "notes", Content := [104, 105] }

/-- The response to `sampleCreate` under `createAllOk`. -/
def sampleCreated : proto.FeedbackFile :=
  { Id := "doc-1", UserId := 7, LabId := 3, Title := "notes", Content := [104, 105],
    ContentHash := sprintfHex (sha256.Sum256 [104, 105]), CreatedAt := 0, UpdatedAt := 0 }

/-- A create whose calls all succeed. -/
def createAllOk : CreateEnv :=
  { uuid := "doc-1", dbNow := 1000, blobNow := 1001, createErr := none, uploadErr := none,
    deleteErr := none }

/-- A create whose blob write fails and whose compensating delete succeeds. -/
def createPutFails : CreateEnv :=
  { createAllOk with uploadErr := some (.errorString "connection reset") }

/-- A create whose blob write fails and whose compensating delete fails too. -/
def createPutAndDeleteFail : CreateEnv :=
  { createPutFails with deleteErr := some (.errorString "connection refused") }

/-- A get whose calls both succeed. -/
def getAllOk : GetEnv := { queryErr := none, downloadErr := none }

/-- An update whose calls all succeed. -/
def updateAllOk : UpdateEnv :=
  { dbNow := 3000, blobNow := 3001, queryErr := none, updateErr := none, uploadErr := none }

/-- An update of `doc-1` that gives a content and no title. -/
def contentOnly : proto.UpdateFeedbackRequest := { Id := "doc-1", Title := "", Content := ascii "new" }

/-- An update of `doc-1` that gives a title and no content. -/
def titleOnly : proto.UpdateFeedbackRequest := { Id := "doc-1", Title := "T", Content := [] }

/-- A delete whose listing reports an error before any object, with the
relational delete succeeding. -/
def deleteListingFails : DeleteEnv :=
  { listErrAfter := some 0, removeErr := fun _ => none, deleteErr := none }

/-- A delete in which the backend refuses to remove the body of `doc-1`. -/
def deleteRemovalRefused : DeleteEnv :=
  { listErrAfter := none,
    removeErr := fun key =>
      if key == "doc-1/content.md" then some (.errorString "access denied") else none,
    deleteErr := none }

/-- An upload whose put and reply succeed, on a machine that grants a buffer
of up to 1 GiB. -/
def uploadAllOk : UploadStreamEnv :=
  { upload := { blobNow := 2000, uploadErr := none }, sendErr := none, memory := 1073741824 }

/-- A download whose calls both succeed. -/
def downloadAllOk : DownloadEnv := { downloadErr := none, infoErr := none }

/-- An upload of `abc`, `def`, `ghi` as asset `a.txt` of `doc-1`, announced with
the size `totalSize`. -/
def sampleUpload (totalSize : Int) : UploadStream :=
  { frames := [.Metadata { FeedbackId := "doc-1", Filename := "a.txt",
                           ContentType := "text/plain", TotalSize := totalSize },
               .Chunk (ascii "abc"), .Chunk (ascii "def"), .Chunk (ascii "ghi")],
    ending := .eof }

/-- An upload whose first frame is a chunk, then a metadata frame and another
chunk, ended gracefully. -/
def chunkFirstUpload : UploadStream :=
  { frames := [.Chunk (ascii "abc"),
               .Metadata { FeedbackId := "doc-1", Filename := "a.txt",
                           ContentType := "text/plain", TotalSize := 6 },
               .Chunk (ascii "def")],
    ending := .eof }

/-- A streamed download whose backend calls and sends all succeed. -/
def downloadStreamAllOk : DownloadStreamEnv :=
  { download := downloadAllOk, sendErr := fun _ => none }

/-- The request for the asset `a.png` of `doc-1`. -/
def samplePng : proto.DownloadAssetRequest := { FeedbackId := "doc-1", Filename := "a.png" }

/-- A listing whose two queries succeed. -/
def listAllOk : ListEnv := { countErr := none, queryErr := none }

/-- A row of user `userID` in lab 3 created at `created`. -/
def rowOf (id : String) (userID : Int) (created : Time) : Row :=
  { id := id, user_id := userID, lab_id := 3, title := id, content_hash := "",
    created_at := created, updated_at := created }

/-- Five documents of user 7, `doc-1` the oldest and `doc-5` the newest, stored
in another order, and one document of user 8. -/
def fiveDocs : Stores :=
  { db := [rowOf "doc-3" 7 300, rowOf "doc-1" 7 100, rowOf "doc-5" 7 500, rowOf "other" 8 350,
           rowOf "doc-2" 7 200, rowOf "doc-4" 7 400],
    bucket := [] }

/-- An update whose relational update fails. -/
def updateRelationalFails : UpdateEnv :=
  { updateAllOk with updateErr := some (.errorString "connection refused") }

/-- An upload of `abc` as asset `a.txt` of `doc-1` that the transport breaks
after the first chunk. -/
def brokenUpload : UploadStream :=
  { frames := [.Metadata { FeedbackId := "doc-1", Filename := "a.txt",
                           ContentType := "text/plain", TotalSize := 6 },
               .Chunk (ascii "abc")],
    ending := .errorString "connection reset" }

/-- A create request with an empty content: owner 7, lab 3, title `notes`. -/
def emptyBodyCreate : proto.CreateFeedbackRequest :=
  { UserId := 7, LabId := 3, Title := "notes", Content := [] }

/-- A list request with the largest page and the largest limit of an `int32`. -/
def largestPage : proto.ListUserFeedbacksRequest :=
  { UserId := 7, LabId := 0, Page := 2147483647, Limit := 2147483647 }

/-! ## Histories of requests -/

/-- A request to create, to update or to delete a document, together with
what the outside supplies while it is served. -/
inductive Request where
  | create (env : CreateEnv) (req : proto.CreateFeedbackRequest)
  | update (env : UpdateEnv) (req : proto.UpdateFeedbackRequest)
  | delete (env : DeleteEnv) (id : String)

/-- The backends after the gRPC handler of the request has returned, with
success or with an error. -/
def Request.run (s : Stores) : Request → Stores
  | .create env req => (FeedbackGRPCServer.CreateFeedback s env req).stores
  | .update env req => (FeedbackGRPCServer.UpdateFeedback s env req).stores
  | .delete env id => (FeedbackGRPCServer.DeleteFeedback s env id).stores

/-- What `uuid.New().String()` gives: an identifier without `/` that is new,
so that no row has it and no object key lies under it. -/
def freshUUID (s : Stores) (uuid : String) : Prop :=
  '/' ∉ uuid.data ∧ (∀ r ∈ s.db, r.id ≠ uuid) ∧
    ∀ o ∈ s.bucket, startsWith (uuid ++ "/") o.Key = false

/-- The identifier a create request draws is fresh. -/
def Request.uuidFresh (s : Stores) : Request → Prop
  | .create env _ => freshUUID s env.uuid
  | _ => True

/-- The states reached from empty stores by serving, one after the other,
requests that `allowed` admits; the backend calls of a request may fail in
any way `allowed` leaves open. -/
inductive Reachable (allowed : Request → Prop) : Stores → Prop where
  | empty : Reachable allowed emptyStores
  | step {s : Stores} (req : Request) :
      Reachable allowed s → req.uuidFresh s → allowed req → Reachable allowed (req.run s)

/-- Any request, with any failure of any backend call. -/
def anyRequest : Request → Prop := fun _ => True

/-- A request that is not an update whose blob write fails: the put of an
update with a content succeeds. -/
def noFailedUpdateWrite : Request → Prop
  | .update env req => req.Content ≠ [] → env.uploadErr = none
  | _ => True

/-- A request in which no compensating delete of a create fails and, for a
delete, the listing reports no error, no removal is refused and the relational
delete call does not fail. -/
def noFailedCleanup : Request → Prop
  | .create env _ => env.uploadErr ≠ none → env.deleteErr = none
  | .update _ _ => True
  | .delete env _ =>
    env.listErrAfter = none ∧ (∀ key, env.removeErr key = none) ∧ env.deleteErr = none

/-- Every record whose body is in the bucket holds the digest of that body. -/
def hashesAgree (s : Stores) : Prop :=
  ∀ r ∈ s.db, ∀ o ∈ s.bucket, o.Key = MinIOClient.objectKey r.id "content.md" →
    r.content_hash = sprintfHex (sha256.Sum256 o.Data)

/-- An update of `doc-1` with content `new` whose relational update succeeds
and whose blob write fails. -/
def updatePutFails : UpdateEnv :=
  { updateAllOk with uploadErr := some (.errorString "connection reset") }

/-- A delete whose blob deletion succeeds and whose relational delete fails. -/
def deleteRelationalFails : DeleteEnv :=
  { listErrAfter := none, removeErr := fun _ => none,
    deleteErr := some (.errorString "connection refused") }

/-- No record has an identifier with a `/` in it. -/
def idsWithoutSlash (s : Stores) : Prop := ∀ r ∈ s.db, '/' ∉ r.id.data

/-- A record with an identifier exists if and only if the body
`<id>/content.md` of that identifier exists. -/
def recordIffBody (s : Stores) : Prop :=
  ∀ id : String,
    (∃ r ∈ s.db, r.id = id) ↔ ∃ o ∈ s.bucket, o.Key = MinIOClient.objectKey id "content.md"

/-! ## Lemmas on the backends -/

/-- A listing holds the objects under the key prefix, each as often as the
bucket does. -/
theorem listObjects_perm (b : Bucket) (pfx : String) :
    (b.listObjects pfx).Perm (b.filter (fun o => startsWith pfx o.Key)) :=
  List.perm_insertionSort _ _

theorem mem_listObjects (b : Bucket) (pfx : String) (o : StoredObject) :
    o ∈ b.listObjects pfx ↔ o ∈ b ∧ startsWith pfx o.Key = true := by
  rw [(listObjects_perm b pfx).mem_iff, List.mem_filter]

theorem find_append_fresh (db : Table) (r : Row)
    (h : db.any (fun x => x.id == r.id) = false) :
    (db ++ [r]).find? (fun x => x.id == r.id) = some r := by
  induction db with
  | nil => simp
  | cons a t ih =>
    simp only [List.any_cons, Bool.or_eq_false_iff] at h
    simp [List.find?_cons, h.1, ih h.2]

theorem filter_fresh (db : Table) (id : String)
    (h : db.any (fun x => x.id == id) = false) :
    db.filter (fun x => !(x.id == id)) = db := by
  induction db with
  | nil => rfl
  | cons a t ih =>
    simp only [List.any_cons, Bool.or_eq_false_iff] at h
    simp [List.filter_cons, h.1, ih h.2]

theorem lookup_putObject (b : Bucket) (now : Time) (key : String) (data : Bytes)
    (contentType : String) :
    (b.putObject now key data contentType).lookup key =
      some { Key := key, Data := data, ContentType := contentType, LastModified := now } := by
  unfold Bucket.putObject Bucket.lookup
  induction b with
  | nil => simp
  | cons a t ih =>
    by_cases hk : a.Key = key
    · simp [List.filter_cons, hk]
    · simp [List.filter_cons, hk, List.find?_cons, ih]

/-- A successful `CreateFeedback` had no failing call and a fresh identifier;
it appends the row and puts the body. -/
theorem CreateFeedback_ok (s : Stores) (env : CreateEnv) (params : CreateFeedbackParams)
    (feedback : FeedbackFile)
    (h : (FeedbackService.CreateFeedback s env params).1 = .ok feedback) :
    s.db.any (fun r => r.id == env.uuid) = false ∧
    feedback = { ID := env.uuid, UserID := params.UserID, LabID := params.LabID,
                 Title := params.Title, Content := params.Content,
                 ContentHash := params.ContentHash, CreatedAt := env.dbNow,
                 UpdatedAt := env.dbNow } ∧
    (FeedbackService.CreateFeedback s env params).2 =
      { db := s.db ++ [createdRow env params],
        bucket := s.bucket.putObject env.blobNow (MinIOClient.objectKey env.uuid "content.md")
          params.Content "text/markdown" } := by
  unfold FeedbackService.CreateFeedback FeedbackRepository.Create sqlInsert
    MinIOClient.UploadFile MinIOClient.PutObject at *
  cases hc : env.createErr with
  | some e => simp [hc] at h
  | none =>
    cases ha : s.db.any (fun r => r.id == env.uuid) with
    | true => simp [hc, ha] at h
    | false =>
      cases hu : env.uploadErr with
      | some e => simp [hc, ha, hu] at h
      | none =>
        simp only [hc, ha, hu, Bool.false_eq_true, ↓reduceIte] at h ⊢
        simp only [Except.ok.injEq] at h
        subst h
        simp [FeedbackFile.zero, createdRow]

/-- A successful gRPC `CreateFeedback` is a successful service call on
`createParams req`. -/
theorem grpc_CreateFeedback_ok (s : Stores) (env : CreateEnv)
    (req : proto.CreateFeedbackRequest) (created : proto.FeedbackFile)
    (h : (FeedbackGRPCServer.CreateFeedback s env req).result = .ok created) :
    ∃ feedback,
      (FeedbackService.CreateFeedback s env (createParams req)).1 = .ok feedback ∧
      created = toProto feedback ∧
      (FeedbackGRPCServer.CreateFeedback s env req).stores =
        (FeedbackService.CreateFeedback s env (createParams req)).2 := by
  unfold FeedbackGRPCServer.CreateFeedback at h ⊢
  simp only [← createParams.eq_1] at h ⊢
  cases hr : FeedbackService.CreateFeedback s env (createParams req) with
  | mk res st =>
    cases res with
    | error err => simp [hr] at h
    | ok feedback =>
      simp only [hr, Except.ok.injEq] at h ⊢
      exact ⟨feedback, rfl, h.symm, trivial⟩

/-- Function `GetFeedback` with both calls succeeding, on a record and a body that are
there, returns the record with the body. -/
theorem GetFeedback_present (s : Stores) (env : GetEnv) (id : String) (r : Row)
    (o : StoredObject) (hquery : env.queryErr = none) (hdownload : env.downloadErr = none)
    (hr : s.db.find? (fun x => x.id == id) = some r)
    (ho : s.bucket.lookup (MinIOClient.objectKey id "content.md") = some o) :
    FeedbackService.GetFeedback s env id =
      (.ok { ID := r.id, UserID := r.user_id, LabID := r.lab_id, Title := r.title,
             Content := o.Data, ContentHash := r.content_hash, CreatedAt := r.created_at,
             UpdatedAt := r.updated_at }, s) := by
  simp only [FeedbackService.GetFeedback, FeedbackRepository.GetByID, sqlSelectByID,
    MinIOClient.DownloadFile, MinIOClient.GetObject, hquery, hdownload, hr, ho,
    FeedbackFile.zero]

/-! ## C1: create, then get -/

/-- C1. When `CreateFeedback`, called through the gRPC layer, succeeds, and
both backend calls of a following `GetFeedback` on the returned id succeed,
then `GetFeedback` returns a document whose content is the submitted content,
whose contentHash is the lowercase hexadecimal SHA-256 digest of that content,
and whose owner, lab and title are the submitted ones. -/
theorem create_get_roundtrip (s : Stores) (cenv : CreateEnv)
    (req : proto.CreateFeedbackRequest) (created : proto.FeedbackFile)
    (hcreate : (FeedbackGRPCServer.CreateFeedback s cenv req).result = .ok created)
    (genv : GetEnv) (hquery : genv.queryErr = none) (hdownload : genv.downloadErr = none) :
    ∃ doc : FeedbackFile,
      (FeedbackService.GetFeedback (FeedbackGRPCServer.CreateFeedback s cenv req).stores genv
          created.Id).1 = .ok doc ∧
      doc.ID = created.Id ∧
      doc.Content = req.Content ∧
      doc.ContentHash = sprintfHex (sha256.Sum256 req.Content) ∧
      doc.UserID = req.UserId ∧ doc.LabID = req.LabId ∧ doc.Title = req.Title := by
  obtain ⟨feedback, hres, hcr, hst⟩ := grpc_CreateFeedback_ok s cenv req created hcreate
  obtain ⟨hfresh, hfb, hst2⟩ := CreateFeedback_ok s cenv (createParams req) feedback hres
  rw [hst, hst2]
  subst hcr hfb
  have hfind := find_append_fresh s.db (createdRow cenv (createParams req))
    (by simpa [createdRow] using hfresh)
  have hget := GetFeedback_present
    { db := s.db ++ [createdRow cenv (createParams req)],
      bucket := s.bucket.putObject cenv.blobNow (MinIOClient.objectKey cenv.uuid "content.md")
        (createParams req).Content "text/markdown" }
    genv cenv.uuid (createdRow cenv (createParams req)) _ hquery hdownload hfind
    (lookup_putObject _ _ _ _ _)
  refine ⟨_, congrArg Prod.fst hget, ?_⟩
  simp [createdRow, createParams, toProto]

/-- Witness of `create_get_roundtrip` on the sample inputs. -/
theorem create_get_roundtrip_witness :
    (FeedbackGRPCServer.CreateFeedback emptyStores createAllOk sampleCreate).result =
      .ok sampleCreated ∧
    ∃ doc : FeedbackFile,
      (FeedbackService.GetFeedback
          (FeedbackGRPCServer.CreateFeedback emptyStores createAllOk sampleCreate).stores getAllOk
          sampleCreated.Id).1 = .ok doc ∧
      doc.ID = sampleCreated.Id ∧
      doc.Content = sampleCreate.Content ∧
      doc.ContentHash = sprintfHex (sha256.Sum256 sampleCreate.Content) ∧
      doc.UserID = sampleCreate.UserId ∧ doc.LabID = sampleCreate.LabId ∧
      doc.Title = sampleCreate.Title :=
  ⟨rfl, create_get_roundtrip emptyStores createAllOk sampleCreate sampleCreated rfl getAllOk
    rfl rfl⟩

/-! ## C2: the compensation of a failed create -/

/-- Function `GetFeedback` on an id the table does not hold fails, whatever the bucket
holds. -/
theorem GetFeedback_absent_record (s : Stores) (env : GetEnv) (id : String)
    (h : s.db.find? (fun x => x.id == id) = none) :
    ∃ err, FeedbackService.GetFeedback s env id = (.error err, s) := by
  unfold FeedbackService.GetFeedback FeedbackRepository.GetByID sqlSelectByID
  cases hq : env.queryErr with
  | some e => exact ⟨_, rfl⟩
  | none => simp only [h]; exact ⟨_, rfl⟩

theorem find_none_of_fresh (db : Table) (id : String)
    (h : db.any (fun x => x.id == id) = false) :
    db.find? (fun x => x.id == id) = none := by
  induction db with
  | nil => rfl
  | cons a t ih =>
    simp only [List.any_cons, Bool.or_eq_false_iff] at h
    simp [List.find?_cons, h.1, ih h.2]

theorem filter_append_fresh (db : Table) (r : Row)
    (h : db.any (fun x => x.id == r.id) = false) :
    (db ++ [r]).filter (fun x => !(x.id == r.id)) = db := by
  simp [List.filter_append, filter_fresh db r.id h]

theorem length_filter_append_fresh (db : Table) (r : Row) :
    ((db ++ [r]).filter (fun x => x.id == r.id)).length ≠ 0 := by
  simp [List.filter_append]

/-- C2. When the relational insert of `CreateFeedback` succeeds (no failure of
the call, and the fresh id is not in the table), the blob write of
`content.md` fails with `cause`, and the compensating relational delete
succeeds, then `CreateFeedback` returns an error that wraps the blob-write
error, the table afterwards is the table before the call and holds no record
with the attempted id, and every following `GetFeedback` on that id fails. -/
theorem create_compensation (s : Stores) (env : CreateEnv) (params : CreateFeedbackParams)
    (cause : GoError)
    (hinsert : env.createErr = none) (hfresh : s.db.any (fun r => r.id == env.uuid) = false)
    (hput : env.uploadErr = some cause) (hdelete : env.deleteErr = none) :
    (MinIOClient.UploadFile s.bucket env.blobNow env.uploadErr env.uuid "content.md"
        "text/markdown" params.Content).2 = some (.wrapError "failed to put object" cause) ∧
    (FeedbackService.CreateFeedback s env params).1 =
      .error (.wrapError "failed to upload content to storage"
        (.wrapError "failed to put object" cause)) ∧
    (FeedbackService.CreateFeedback s env params).2.db = s.db ∧
    (∀ r ∈ (FeedbackService.CreateFeedback s env params).2.db, r.id ≠ env.uuid) ∧
    ∀ genv : GetEnv, ∃ err,
      (FeedbackService.GetFeedback (FeedbackService.CreateFeedback s env params).2 genv
        env.uuid).1 = .error err := by
  have hrow := filter_append_fresh s.db (createdRow env params) hfresh
  have hlen := length_filter_append_fresh s.db (createdRow env params)
  simp only [createdRow] at hrow hlen
  have hrun : FeedbackService.CreateFeedback s env params =
      (.error (.wrapError "failed to upload content to storage"
        (.wrapError "failed to put object" cause)), { db := s.db, bucket := s.bucket }) := by
    simp only [FeedbackService.CreateFeedback, FeedbackRepository.Create, sqlInsert,
      MinIOClient.UploadFile, MinIOClient.PutObject, FeedbackRepository.Delete, sqlDelete,
      hinsert, hfresh, hput, hdelete, Bool.false_eq_true, ↓reduceIte, FeedbackFile.zero, hrow]
    split <;> rfl
  have hnone := find_none_of_fresh s.db env.uuid hfresh
  refine ⟨by simp [MinIOClient.UploadFile, MinIOClient.PutObject, hput], by rw [hrun],
    by rw [hrun], ?_, ?_⟩
  · rw [hrun]
    intro r hr hid
    have := List.find?_eq_none.mp hnone r hr
    simp [hid] at this
  · intro genv
    rw [hrun]
    obtain ⟨err, herr⟩ := GetFeedback_absent_record { db := s.db, bucket := s.bucket } genv
      env.uuid hnone
    exact ⟨err, by rw [herr]⟩

/-- Witness of `create_compensation` on the sample inputs. -/
theorem create_compensation_witness :
    (createPutFails.createErr = none ∧
     emptyStores.db.any (fun r => r.id == createPutFails.uuid) = false ∧
     createPutFails.uploadErr = some (.errorString "connection reset") ∧
     createPutFails.deleteErr = none) ∧
    (FeedbackService.CreateFeedback emptyStores createPutFails (createParams sampleCreate)).1 =
      .error (.wrapError "failed to upload content to storage"
        (.wrapError "failed to put object" (.errorString "connection reset"))) ∧
    (FeedbackService.CreateFeedback emptyStores createPutFails
      (createParams sampleCreate)).2.db = emptyStores.db ∧
    ∀ genv : GetEnv, ∃ err,
      (FeedbackService.GetFeedback
        (FeedbackService.CreateFeedback emptyStores createPutFails (createParams sampleCreate)).2
        genv createPutFails.uuid).1 = .error err :=
  have h := create_compensation emptyStores createPutFails (createParams sampleCreate)
    (.errorString "connection reset") rfl rfl rfl rfl
  ⟨⟨rfl, rfl, rfl, rfl⟩, h.2.1, h.2.2.1, h.2.2.2.2⟩

/-! ## C3: a failing compensation -/

/-- The result of `CreateFeedback` does not depend on the outcome of the
compensating delete. -/
theorem CreateFeedback_result_ignores_delete (s : Stores) (env : CreateEnv)
    (params : CreateFeedbackParams) (d : Option GoError) :
    (FeedbackService.CreateFeedback s { env with deleteErr := d } params).1 =
      (FeedbackService.CreateFeedback s env params).1 := by
  unfold FeedbackService.CreateFeedback FeedbackRepository.Create sqlInsert
    MinIOClient.UploadFile MinIOClient.PutObject
  cases hc : env.createErr <;> cases hu : env.uploadErr <;>
    cases ha : s.db.any (fun r => r.id == env.uuid) <;>
    simp only [ha, Bool.false_eq_true, ↓reduceIte]

/-- C3. With the blob write failing, `CreateFeedback` gives the same result
and the gRPC layer logs the same line whether the compensating delete
succeeds or fails, although a failed compensation leaves the inserted record
in the table: the failure of the compensating delete is dropped. -/
theorem create_compensation_failure_dropped :
    (FeedbackService.CreateFeedback emptyStores createPutAndDeleteFail
        (createParams sampleCreate)).1 =
      (FeedbackService.CreateFeedback emptyStores createPutFails (createParams sampleCreate)).1 ∧
    (FeedbackGRPCServer.CreateFeedback emptyStores createPutAndDeleteFail sampleCreate).result =
      (FeedbackGRPCServer.CreateFeedback emptyStores createPutFails sampleCreate).result ∧
    (FeedbackGRPCServer.CreateFeedback emptyStores createPutAndDeleteFail sampleCreate).log =
      (FeedbackGRPCServer.CreateFeedback emptyStores createPutFails sampleCreate).log ∧
    (FeedbackGRPCServer.CreateFeedback emptyStores createPutFails sampleCreate).stores.db = [] ∧
    (FeedbackGRPCServer.CreateFeedback emptyStores createPutAndDeleteFail
        sampleCreate).stores.db.map (fun r => r.id) = ["doc-1"] := by
  refine ⟨rfl, rfl, rfl, rfl, rfl⟩

/-! ## C4: updates of one field -/

theorem find_some_id (db : Table) (id : String) (r : Row)
    (h : db.find? (fun x => x.id == id) = some r) : r.id = id := by
  have := List.find?_some h
  simpa using this

theorem any_of_find_some (db : Table) (id : String) (r : Row)
    (h : db.find? (fun x => x.id == id) = some r) :
    db.any (fun x => x.id == id) = true := by
  rw [List.any_eq_true]
  exact ⟨r, List.mem_of_find?_eq_some h, by simp [find_some_id db id r h]⟩

/-- Function `UpdateFeedback` on an existing document, with every call succeeding. -/
theorem UpdateFeedback_run (s : Stores) (env : UpdateEnv) (params : UpdateFeedbackParams)
    (r : Row) (hquery : env.queryErr = none) (hupdate : env.updateErr = none)
    (hupload : env.uploadErr = none)
    (hr : s.db.find? (fun x => x.id == params.ID) = some r) :
    FeedbackService.UpdateFeedback s env params =
      (.ok { ID := params.ID, UserID := r.user_id, LabID := r.lab_id,
             Title := newTitle params r.title,
             Content := if params.Content != [] then params.Content else [],
             ContentHash := newHash params r.content_hash,
             CreatedAt := r.created_at, UpdatedAt := env.dbNow },
       { db := updatedTable s.db env.dbNow params r,
         bucket := updatedBucket s.bucket env.blobNow params }) := by
  have hid := find_some_id s.db params.ID r hr
  have hany := any_of_find_some s.db params.ID r hr
  unfold FeedbackService.UpdateFeedback FeedbackRepository.GetByID sqlSelectByID
    FeedbackRepository.Update sqlUpdate MinIOClient.UploadFile MinIOClient.PutObject
  simp only [hquery, hupdate, hupload, hr, FeedbackFile.zero, newTitle, newHash, updatedTable,
    updatedBucket]
  by_cases ht : params.Title = "" <;> by_cases hc : params.Content = [] <;>
    simp [ht, hc, hid, hany]

/-- The gRPC `UpdateFeedback` in terms of the service call on `updateParams req`. -/
theorem grpc_UpdateFeedback_ok (s : Stores) (env : UpdateEnv) (req : proto.UpdateFeedbackRequest)
    (feedback : FeedbackFile) (st : Stores)
    (h : FeedbackService.UpdateFeedback s env (updateParams req) = (.ok feedback, st)) :
    (FeedbackGRPCServer.UpdateFeedback s env req).result = .ok (toProto feedback) ∧
    (FeedbackGRPCServer.UpdateFeedback s env req).stores = st := by
  unfold FeedbackGRPCServer.UpdateFeedback
  simp only [← updateParams.eq_1]
  rw [h]
  exact ⟨rfl, rfl⟩

theorem find_updatedTable (db : Table) (now : Time) (params : UpdateFeedbackParams) (r : Row)
    (hr : db.find? (fun x => x.id == params.ID) = some r) :
    (updatedTable db now params r).find? (fun x => x.id == params.ID) =
      some { r with title := newTitle params r.title,
                    content_hash := newHash params r.content_hash, updated_at := now } := by
  have hid := find_some_id db params.ID r hr
  unfold updatedTable
  rw [List.find?_map]
  have hfun : ((fun x : Row => x.id == params.ID) ∘ fun x : Row =>
      if x.id == params.ID then
        { x with title := newTitle params r.title,
                 content_hash := newHash params r.content_hash, updated_at := now }
      else x) = fun x : Row => x.id == params.ID := by
    funext x
    by_cases hx : x.id = params.ID <;> simp [hx]
  rw [hfun, hr]
  simp [hid]

/-- C4. For an existing document and an `UpdateFeedback` request through the
gRPC layer whose backend calls all succeed, the request succeeds and the row
of the document is still there; with an empty title and a non-empty content the
stored title is unchanged, the stored contentHash is the lowercase hexadecimal
SHA-256 digest of the new content and the stored body is the new content; with
a non-empty title and an empty content the stored title is the new title, the
stored contentHash is unchanged and the bucket is untouched. -/
theorem update_partial_fields (s : Stores) (env : UpdateEnv) (req : proto.UpdateFeedbackRequest)
    (r : Row) (hquery : env.queryErr = none) (hupdate : env.updateErr = none)
    (hupload : env.uploadErr = none)
    (hexists : s.db.find? (fun x => x.id == req.Id) = some r) :
    ∃ (doc : proto.FeedbackFile) (r' : Row),
      (FeedbackGRPCServer.UpdateFeedback s env req).result = .ok doc ∧
      (FeedbackGRPCServer.UpdateFeedback s env req).stores.db.find? (fun x => x.id == req.Id) =
        some r' ∧
      (req.Title = "" → req.Content ≠ [] →
        r'.title = r.title ∧
        r'.content_hash = sprintfHex (sha256.Sum256 req.Content) ∧
        ((FeedbackGRPCServer.UpdateFeedback s env req).stores.bucket.lookup
          (MinIOClient.objectKey req.Id "content.md")).map (fun o => o.Data) =
            some req.Content) ∧
      (req.Title ≠ "" → req.Content = [] →
        r'.title = req.Title ∧
        r'.content_hash = r.content_hash ∧
        (FeedbackGRPCServer.UpdateFeedback s env req).stores.bucket = s.bucket) := by
  have hrun := UpdateFeedback_run s env (updateParams req) r hquery hupdate hupload hexists
  obtain ⟨hres, hst⟩ := grpc_UpdateFeedback_ok s env req _ _ hrun
  refine ⟨_, { r with title := newTitle (updateParams req) r.title,
                       content_hash := newHash (updateParams req) r.content_hash,
                       updated_at := env.dbNow }, hres, ?_, ?_, ?_⟩
  · rw [hst]
    exact find_updatedTable s.db env.dbNow (updateParams req) r hexists
  · intro ht hc
    rw [hst]
    refine ⟨?_, ?_, ?_⟩
    · simp [newTitle, updateParams, ht]
    · simp [newHash, updateParams, hc]
    · simp only [updatedBucket, updateParams]
      simp [hc, lookup_putObject]
  · intro ht hc
    rw [hst]
    refine ⟨?_, ?_, ?_⟩
    · simp [newTitle, updateParams, ht]
    · simp [newHash, updateParams, hc]
    · simp [updatedBucket, updateParams, hc]

/-- Witness of `update_partial_fields` on the sample inputs. -/
theorem update_partial_fields_witness :
    (updateAllOk.queryErr = none ∧ updateAllOk.updateErr = none ∧
     updateAllOk.uploadErr = none ∧
     oneDoc.db.find? (fun x => x.id == "doc-1") = some oneDocRow) ∧
    (∃ (doc : proto.FeedbackFile) (r' : Row),
      (FeedbackGRPCServer.UpdateFeedback oneDoc updateAllOk contentOnly).result = .ok doc ∧
      (FeedbackGRPCServer.UpdateFeedback oneDoc updateAllOk contentOnly).stores.db.find?
        (fun x => x.id == "doc-1") = some r' ∧
      r'.title = "notes" ∧
      r'.content_hash = sprintfHex (sha256.Sum256 (ascii "new")) ∧
      ((FeedbackGRPCServer.UpdateFeedback oneDoc updateAllOk contentOnly).stores.bucket.lookup
        (MinIOClient.objectKey "doc-1" "content.md")).map (fun o => o.Data) =
          some (ascii "new")) ∧
    (∃ (doc : proto.FeedbackFile) (r' : Row),
      (FeedbackGRPCServer.UpdateFeedback oneDoc updateAllOk titleOnly).result = .ok doc ∧
      (FeedbackGRPCServer.UpdateFeedback oneDoc updateAllOk titleOnly).stores.db.find?
        (fun x => x.id == "doc-1") = some r' ∧
      r'.title = "T" ∧
      r'.content_hash = oneDocRow.content_hash ∧
      (FeedbackGRPCServer.UpdateFeedback oneDoc updateAllOk titleOnly).stores.bucket =
        oneDoc.bucket) := by
  refine ⟨⟨rfl, rfl, rfl, by decide⟩, ?_, ?_⟩
  · obtain ⟨doc, r', hres, hfind, hcontent, _⟩ :=
      update_partial_fields oneDoc updateAllOk contentOnly oneDocRow rfl rfl rfl (by decide)
    obtain ⟨h1, h2, h3⟩ := hcontent rfl (by decide)
    exact ⟨doc, r', hres, hfind, h1, h2, h3⟩
  · obtain ⟨doc, r', hres, hfind, _, htitle⟩ :=
      update_partial_fields oneDoc updateAllOk titleOnly oneDocRow rfl rfl rfl (by decide)
    obtain ⟨h1, h2, h3⟩ := htitle (by decide) rfl
    exact ⟨doc, r', hres, hfind, h1, h2, h3⟩

/-! ## C5: what a delete leaves behind -/

theorem startsWith_iff (pfx key : String) :
    startsWith pfx key = true ↔ pfx.data <+: key.data := by
  unfold startsWith
  exact List.isPrefixOf_iff_prefix

theorem startsWith_of_append (a b key : String) (h : startsWith (a ++ b) key = true) :
    startsWith a key = true := by
  rw [startsWith_iff] at h ⊢
  rw [String.data_append] at h
  exact (List.prefix_append _ _).trans h

theorem find_none_after_delete (db : Table) (id : String) :
    (db.filter (fun x => !(x.id == id))).find? (fun x => x.id == id) = none := by
  rw [List.find?_eq_none]
  intro x hx
  have := (List.mem_filter.mp hx).2
  simpa using this

/-- A `RemoveObjectsWithPrefix` whose listing reports no error and which
returns `nil` leaves no object under the key prefix. -/
theorem RemoveObjectsWithPrefix_complete (b : Bucket) (removeErr : String → Option GoError)
    (pfx : String) (h : (MinIOClient.RemoveObjectsWithPrefix b none removeErr pfx).2 = none) :
    ∀ o ∈ (MinIOClient.RemoveObjectsWithPrefix b none removeErr pfx).1,
      startsWith pfx o.Key = false := by
  unfold MinIOClient.RemoveObjectsWithPrefix at h ⊢
  simp only [List.findSome?_eq_none_iff, Option.map_eq_none'] at h
  intro o ho
  simp only [Bucket.removeKeys, List.mem_filter] at ho
  obtain ⟨hmem, hnot⟩ := ho
  cases hs : startsWith pfx o.Key with
  | false => rfl
  | true =>
    exfalso
    have hl : o ∈ b.listObjects pfx := (mem_listObjects b pfx o).mpr ⟨hmem, hs⟩
    have hk : o.Key ∈ ((b.listObjects pfx).filter
        (fun o => (removeErr o.Key).isNone)).map (fun o => o.Key) := by
      rw [List.mem_map]
      exact ⟨o, List.mem_filter.mpr ⟨hl, by simp [h o hl]⟩, rfl⟩
    simp [hk] at hnot

/-- When the listing of the key prefix reports no error, a `DeleteFeedback`
that returns `nil` leaves no record with the id, no asset in the listing, and
no object under `<id>/`. -/
theorem DeleteFeedback_complete_of_listing_ok (s : Stores) (env : DeleteEnv) (id : String)
    (hlist : env.listErrAfter = none)
    (hret : (FeedbackService.DeleteFeedback s env id).1 = none) :
    (∀ genv : GetEnv, ∃ err,
      (FeedbackService.GetFeedback (FeedbackService.DeleteFeedback s env id).2 genv id).1 =
        .error err) ∧
    (FeedbackService.ListAssets (FeedbackService.DeleteFeedback s env id).2 none id).1 = .ok [] ∧
    ∀ o ∈ (FeedbackService.DeleteFeedback s env id).2.bucket,
      startsWith (id ++ "/") o.Key = false := by
  unfold FeedbackService.DeleteFeedback MinIOClient.DeleteFolder at hret ⊢
  rw [hlist] at hret ⊢
  have hcomp := RemoveObjectsWithPrefix_complete s.bucket env.removeErr (id ++ "/")
  cases hrm : MinIOClient.RemoveObjectsWithPrefix s.bucket none env.removeErr (id ++ "/") with
  | mk bucket rErr =>
    rw [hrm] at hret hcomp
    cases rErr with
    | some err => simp at hret
    | none =>
      simp only at hret hcomp ⊢
      have hcomp := hcomp trivial
      unfold FeedbackRepository.Delete sqlDelete at hret ⊢
      cases hd : env.deleteErr with
      | some err => simp [hd] at hret
      | none =>
        simp only [hd] at hret ⊢
        by_cases hz : ((s.db.filter (fun r => r.id == id)).length == 0) = true
        · simp [hz] at hret
        · simp only [hz, Bool.false_eq_true, ↓reduceIte]
          refine ⟨?_, ?_, hcomp⟩
          · intro genv
            obtain ⟨err, herr⟩ := GetFeedback_absent_record
              { db := s.db.filter (fun r => !(r.id == id)), bucket := bucket } genv id
              (find_none_after_delete s.db id)
            exact ⟨err, by rw [herr]⟩
          · have hnone : bucket.listObjects (MinIOClient.objectKey id "assets/") = [] := by
              rw [List.eq_nil_iff_forall_not_mem]
              intro o hmem
              obtain ⟨ho, hs⟩ := (mem_listObjects _ _ o).mp hmem
              have h1 := startsWith_of_append (id ++ "/") "assets/" o.Key
                (by simpa [MinIOClient.objectKey] using hs)
              rw [hcomp o ho] at h1
              exact Bool.false_ne_true h1
            simp [FeedbackService.ListAssets, MinIOClient.ListFiles, MinIOClient.ListObjects,
              hnone]

/-- C5. On a document with a body and one asset, when the listing of the key
prefix fails at once, `DeleteFeedback` returns `nil` and deletes the record,
so that `GetFeedback` fails, but nothing is removed from the bucket: the body
and the asset stay under `<id>/`, and `ListAssets` still reports the asset. -/
theorem delete_incomplete_when_listing_fails :
    (FeedbackService.DeleteFeedback oneDoc deleteListingFails "doc-1").1 = none ∧
    (FeedbackService.DeleteFeedback oneDoc deleteListingFails "doc-1").2.db = [] ∧
    (FeedbackService.GetFeedback
        (FeedbackService.DeleteFeedback oneDoc deleteListingFails "doc-1").2 getAllOk "doc-1").1 =
      .error (.wrapError "failed to get feedback metadata" ErrNoRows) ∧
    (FeedbackService.DeleteFeedback oneDoc deleteListingFails "doc-1").2.bucket =
      oneDoc.bucket ∧
    ((FeedbackService.DeleteFeedback oneDoc deleteListingFails "doc-1").2.bucket.filter
        (fun o => startsWith ("doc-1" ++ "/") o.Key)).map (fun o => o.Key) =
      ["doc-1/content.md", "doc-1/assets/a.png"] ∧
    (FeedbackService.ListAssets
        (FeedbackService.DeleteFeedback oneDoc deleteListingFails "doc-1").2 none "doc-1").1 =
      .ok [{ Filename := "a.png", Size := 3, ContentType := "", UploadedAt := 1002 }] := by
  decide

/-! ## C6: a delete whose blob deletion fails -/

/-- When the deletion of the key prefix that `DeleteFeedback` performs returns
the error `err`, `DeleteFeedback` returns an error wrapping `err`, and the table
is exactly the table before the call, whatever the relational delete would have
answered. -/
theorem delete_aborts_before_relational (s : Stores) (env : DeleteEnv) (id : String)
    (err : GoError)
    (hblob : (MinIOClient.DeleteFolder s.bucket env.listErrAfter env.removeErr id).2 = some err) :
    (FeedbackService.DeleteFeedback s env id).1 =
      some (.wrapError "failed to delete content from storage" err) ∧
    (FeedbackService.DeleteFeedback s env id).2.db = s.db := by
  unfold FeedbackService.DeleteFeedback
  cases hrm : MinIOClient.DeleteFolder s.bucket env.listErrAfter env.removeErr id with
  | mk bucket rErr =>
    rw [hrm] at hblob
    simp only at hblob
    subst hblob
    exact ⟨rfl, rfl⟩

/-- Witness of `delete_aborts_before_relational` on the sample inputs. -/
theorem delete_aborts_before_relational_witness :
    (MinIOClient.DeleteFolder oneDoc.bucket deleteRemovalRefused.listErrAfter
        deleteRemovalRefused.removeErr "doc-1").2 =
      some (.wrapError "failed to remove object doc-1/content.md"
        (.errorString "access denied")) ∧
    (FeedbackService.DeleteFeedback oneDoc deleteRemovalRefused "doc-1").1 =
      some (.wrapError "failed to delete content from storage"
        (.wrapError "failed to remove object doc-1/content.md"
          (.errorString "access denied"))) ∧
    (FeedbackService.DeleteFeedback oneDoc deleteRemovalRefused "doc-1").2.db = oneDoc.db :=
  ⟨by decide, delete_aborts_before_relational oneDoc deleteRemovalRefused "doc-1" _ (by decide)⟩

theorem GetFeedback_absent_body (s : Stores) (env : GetEnv) (id : String)
    (h : s.bucket.lookup (MinIOClient.objectKey id "content.md") = none) :
    ∃ err, FeedbackService.GetFeedback s env id = (.error err, s) := by
  unfold FeedbackService.GetFeedback MinIOClient.DownloadFile MinIOClient.GetObject
  cases FeedbackRepository.GetByID s.db env.queryErr id with
  | error e => exact ⟨_, rfl⟩
  | ok feedback =>
    cases env.downloadErr with
    | some e => exact ⟨_, rfl⟩
    | none => simp only [h]; exact ⟨_, rfl⟩

/-- C7. `GetFeedback` fails if the table has no record with the id, and fails
if the bucket has no object `<id>/content.md`; when it succeeds both are
there; when both are there and neither call fails it succeeds with the body
of the object; and in every case the table and the bucket are unchanged. -/
theorem get_needs_both_and_changes_nothing (s : Stores) (env : GetEnv) (id : String) :
    (s.db.find? (fun x => x.id == id) = none →
      ∃ err, (FeedbackService.GetFeedback s env id).1 = .error err) ∧
    (s.bucket.lookup (MinIOClient.objectKey id "content.md") = none →
      ∃ err, (FeedbackService.GetFeedback s env id).1 = .error err) ∧
    (∀ doc, (FeedbackService.GetFeedback s env id).1 = .ok doc →
      (∃ r, s.db.find? (fun x => x.id == id) = some r) ∧
      ∃ o, s.bucket.lookup (MinIOClient.objectKey id "content.md") = some o ∧
        doc.Content = o.Data) ∧
    (∀ r o, s.db.find? (fun x => x.id == id) = some r →
      s.bucket.lookup (MinIOClient.objectKey id "content.md") = some o →
      env.queryErr = none → env.downloadErr = none →
      ∃ doc, (FeedbackService.GetFeedback s env id).1 = .ok doc ∧ doc.Content = o.Data) ∧
    (FeedbackService.GetFeedback s env id).2 = s := by
  refine ⟨?_, ?_, ?_, ?_, ?_⟩
  · intro h
    obtain ⟨err, herr⟩ := GetFeedback_absent_record s env id h
    exact ⟨err, by rw [herr]⟩
  · intro h
    obtain ⟨err, herr⟩ := GetFeedback_absent_body s env id h
    exact ⟨err, by rw [herr]⟩
  · intro doc hdoc
    cases hr : s.db.find? (fun x => x.id == id) with
    | none =>
      obtain ⟨err, herr⟩ := GetFeedback_absent_record s env id hr
      rw [herr] at hdoc
      simp at hdoc
    | some r =>
      cases ho : s.bucket.lookup (MinIOClient.objectKey id "content.md") with
      | none =>
        obtain ⟨err, herr⟩ := GetFeedback_absent_body s env id ho
        rw [herr] at hdoc
        simp at hdoc
      | some o =>
        refine ⟨⟨r, rfl⟩, o, rfl, ?_⟩
        unfold FeedbackService.GetFeedback FeedbackRepository.GetByID sqlSelectByID
          MinIOClient.DownloadFile MinIOClient.GetObject at hdoc
        cases hq : env.queryErr with
        | some e => simp [hq] at hdoc
        | none =>
          cases hd : env.downloadErr with
          | some e => simp [hq, hd, hr] at hdoc
          | none =>
            simp only [hq, hd, hr, ho, Except.ok.injEq] at hdoc
            rw [← hdoc]
  · intro r o hr ho hq hd
    exact ⟨_, congrArg Prod.fst (GetFeedback_present s env id r o hq hd hr ho), rfl⟩
  · unfold FeedbackService.GetFeedback
    cases FeedbackRepository.GetByID s.db env.queryErr id with
    | error e => rfl
    | ok feedback =>
      cases MinIOClient.DownloadFile s.bucket env.downloadErr id "content.md" with
      | error e => rfl
      | ok content => rfl

/-- Witness of `get_needs_both_and_changes_nothing` on the sample inputs. -/
theorem get_needs_both_and_changes_nothing_witness :
    (∃ err, (FeedbackService.GetFeedback emptyStores getAllOk "doc-1").1 = .error err) ∧
    (∃ doc, (FeedbackService.GetFeedback oneDoc getAllOk "doc-1").1 = .ok doc ∧
      doc.Content = [104, 105]) ∧
    (FeedbackService.GetFeedback oneDoc getAllOk "doc-1").2 = oneDoc :=
  ⟨(get_needs_both_and_changes_nothing emptyStores getAllOk "doc-1").1 (by decide),
   (get_needs_both_and_changes_nothing oneDoc getAllOk "doc-1").2.2.2.1 oneDocRow
     { Key := "doc-1/content.md", Data := [104, 105], ContentType := "text/markdown",
       LastModified := 1001 } (by decide) (by decide) rfl rfl,
   (get_needs_both_and_changes_nothing oneDoc getAllOk "doc-1").2.2.2.2⟩

/-! ## C8: an asset uploaded, then downloaded -/

/-- Function `UploadAsset` with the put succeeding. -/
theorem UploadAsset_run (s : Stores) (env : UploadEnv) (feedbackID filename contentType : String)
    (data : Bytes) (hupload : env.uploadErr = none) :
    FeedbackService.UploadAsset s env feedbackID filename contentType data =
      (.ok (data.length : Int),
       { db := s.db,
         bucket := s.bucket.putObject env.blobNow
           (MinIOClient.objectKey feedbackID ("assets/" ++ filename)) data contentType }) := by
  simp only [FeedbackService.UploadAsset, MinIOClient.UploadFile, MinIOClient.PutObject, hupload]

/-- Function `DownloadAsset` with both calls succeeding, on an object that is there. -/
theorem DownloadAsset_present (s : Stores) (env : DownloadEnv) (feedbackID filename : String)
    (o : StoredObject) (hdownload : env.downloadErr = none) (hinfo : env.infoErr = none)
    (ho : s.bucket.lookup (MinIOClient.objectKey feedbackID ("assets/" ++ filename)) = some o) :
    FeedbackService.DownloadAsset s env feedbackID filename =
      (.ok ({ Filename := filename, Size := (o.Data.length : Int), ContentType := o.ContentType,
              UploadedAt := o.LastModified }, o.Data), s) := by
  simp only [FeedbackService.DownloadAsset, MinIOClient.DownloadFile, MinIOClient.GetObject,
    MinIOClient.GetFileInfo, hdownload, hinfo, ho]

/-- C8. When the put of `UploadAsset` and the two calls of a following
`DownloadAsset` succeed, `UploadAsset` returns the length of the bytes `B`,
and `DownloadAsset` of the same file returns exactly `B` with an `AssetInfo`
whose filename is `f` and whose size is the length of `B`. -/
theorem asset_roundtrip (s : Stores) (uenv : UploadEnv) (denv : DownloadEnv)
    (feedbackID f contentType : String) (B : Bytes)
    (hupload : uenv.uploadErr = none) (hdownload : denv.downloadErr = none)
    (hinfo : denv.infoErr = none) :
    (FeedbackService.UploadAsset s uenv feedbackID f contentType B).1 = .ok (B.length : Int) ∧
    ∃ info : AssetInfo,
      (FeedbackService.DownloadAsset
        (FeedbackService.UploadAsset s uenv feedbackID f contentType B).2 denv feedbackID f).1 =
          .ok (info, B) ∧
      info.Filename = f ∧ info.Size = (B.length : Int) ∧ info.ContentType = contentType := by
  rw [UploadAsset_run s uenv feedbackID f contentType B hupload]
  refine ⟨rfl, _, congrArg Prod.fst (DownloadAsset_present _ denv feedbackID f _ hdownload hinfo
    (lookup_putObject _ _ _ _ _)), rfl, rfl, rfl⟩

/-- Witness of `asset_roundtrip` on the sample inputs. -/
theorem asset_roundtrip_witness :
    (uploadAllOk.upload.uploadErr = none ∧ downloadAllOk.downloadErr = none ∧
     downloadAllOk.infoErr = none) ∧
    (FeedbackService.UploadAsset emptyStores uploadAllOk.upload "doc-1" "a.txt" "text/plain"
      (ascii "abc")).1 = .ok 3 ∧
    ∃ info : AssetInfo,
      (FeedbackService.DownloadAsset
        (FeedbackService.UploadAsset emptyStores uploadAllOk.upload "doc-1" "a.txt" "text/plain"
          (ascii "abc")).2 downloadAllOk "doc-1" "a.txt").1 = .ok (info, ascii "abc") ∧
      info.Filename = "a.txt" ∧ info.Size = 3 ∧ info.ContentType = "text/plain" :=
  ⟨⟨rfl, rfl, rfl⟩,
   asset_roundtrip emptyStores uploadAllOk.upload downloadAllOk "doc-1" "a.txt" "text/plain"
     (ascii "abc") rfl rfl rfl⟩

/-! ## C9: an asset uploaded twice -/

theorem objectKey_asset_data (feedbackID f : String) :
    (MinIOClient.objectKey feedbackID ("assets/" ++ f)).data =
      (MinIOClient.objectKey feedbackID "assets/").data ++ f.data := by
  simp [MinIOClient.objectKey, String.data_append, List.append_assoc]

theorem startsWith_asset_key (feedbackID f : String) :
    startsWith (MinIOClient.objectKey feedbackID "assets/")
      (MinIOClient.objectKey feedbackID ("assets/" ++ f)) = true := by
  rw [startsWith_iff, objectKey_asset_data]
  exact List.prefix_append _ _

/-- Under the key prefix of the assets of a document, an object is listed with
filename `f` exactly when its key is the key of asset `f`. -/
theorem assetEntry_filename_iff (feedbackID f : String) (o : StoredObject)
    (h : startsWith (MinIOClient.objectKey feedbackID "assets/") o.Key = true) :
    (assetEntry (MinIOClient.objectKey feedbackID "assets/") o).Filename = f ↔
      o.Key = MinIOClient.objectKey feedbackID ("assets/" ++ f) := by
  rw [startsWith_iff] at h
  obtain ⟨t, ht⟩ := h
  constructor
  · intro hf
    apply String.ext
    rw [objectKey_asset_data, ← ht, ← hf]
    simp [assetEntry, ← ht]
  · intro hk
    apply String.ext
    have : o.Key.data =
        (MinIOClient.objectKey feedbackID "assets/").data ++ f.data := by
      rw [hk, objectKey_asset_data]
    simp [assetEntry, this]

/-- Function `ListAssets` with the listing succeeding. -/
theorem ListAssets_run (s : Stores) (feedbackID : String) :
    FeedbackService.ListAssets s none feedbackID =
      (.ok ((s.bucket.listObjects (MinIOClient.objectKey feedbackID "assets/")).map
        (assetEntry (MinIOClient.objectKey feedbackID "assets/"))), s) := by
  simp [FeedbackService.ListAssets, MinIOClient.ListFiles, MinIOClient.ListObjects,
    StoredObject.info, assetEntry, Function.comp_def]

/-- After a put at the key of asset `f`, the listing of the assets has exactly
one entry with filename `f`, the entry of the object put. -/
theorem list_after_put (b : Bucket) (now : Time) (feedbackID f contentType : String)
    (data : Bytes) :
    (((b.putObject now (MinIOClient.objectKey feedbackID ("assets/" ++ f)) data
        contentType).listObjects (MinIOClient.objectKey feedbackID "assets/")).map
      (assetEntry (MinIOClient.objectKey feedbackID "assets/"))).filter
        (fun a => a.Filename == f) =
      [{ Filename := f, Size := (data.length : Int), ContentType := "",
         UploadedAt := now }] := by
  apply List.perm_singleton.mp
  refine (((listObjects_perm _ _).map _).filter _).trans ?_
  apply List.Perm.of_eq
  have hstart := startsWith_asset_key feedbackID f
  have hnew : (assetEntry (MinIOClient.objectKey feedbackID "assets/")
      { Key := MinIOClient.objectKey feedbackID ("assets/" ++ f), Data := data,
        ContentType := contentType, LastModified := now }).Filename = f :=
    (assetEntry_filename_iff feedbackID f _ hstart).mpr rfl
  have hold : ((b.filter (fun o =>
      !(o.Key == MinIOClient.objectKey feedbackID ("assets/" ++ f)))).filter
        (fun o => startsWith (MinIOClient.objectKey feedbackID "assets/") o.Key)).filter
          (fun o => (assetEntry (MinIOClient.objectKey feedbackID "assets/") o).Filename == f)
      = [] := by
    rw [List.filter_eq_nil_iff]
    intro o ho hf
    obtain ⟨ho2, hs⟩ := List.mem_filter.mp ho
    have hne := (List.mem_filter.mp ho2).2
    have hk := (assetEntry_filename_iff feedbackID f o hs).mp (by simpa using hf)
    simp [hk] at hne
  simp only [Bucket.putObject, List.filter_append, List.filter_map,
    List.map_append, Function.comp_def, hold, List.map_nil, List.nil_append]
  simp only [List.filter_cons, List.filter_nil, hstart, ↓reduceIte, hnew, beq_self_eq_true,
    List.map_cons, List.map_nil]
  have hentry : assetEntry (MinIOClient.objectKey feedbackID "assets/")
      { Key := MinIOClient.objectKey feedbackID ("assets/" ++ f), Data := data,
        ContentType := contentType, LastModified := now } =
      { Filename := f, Size := (data.length : Int), ContentType := "",
        UploadedAt := now } := by
    simp only [assetEntry, AssetInfo.mk.injEq, and_true]
    exact hnew
  rw [hentry]

/-- After a put the bucket holds exactly one object at the key, the one put. -/
theorem filter_key_putObject (b : Bucket) (now : Time) (key : String) (data : Bytes)
    (contentType : String) :
    (b.putObject now key data contentType).filter (fun o => o.Key == key) =
      [{ Key := key, Data := data, ContentType := contentType, LastModified := now }] := by
  have hold : (b.filter (fun o => !(o.Key == key))).filter (fun o => o.Key == key) = [] := by
    rw [List.filter_eq_nil_iff]
    intro o ho hk
    have := (List.mem_filter.mp ho).2
    simp [hk] at this
  simp [Bucket.putObject, List.filter_append, hold]

/-- C9. After `UploadAsset` of file `f` with bytes `B1` and then with bytes
`B2`, every call succeeding, `DownloadAsset` of `f` returns `B2` with size the
length of `B2`, the bucket holds at the key of `f` the second payload only,
and `ListAssets` has exactly one entry with filename `f`, that of the second
upload. -/
theorem asset_overwrite (s : Stores) (e1 e2 : UploadEnv) (denv : DownloadEnv)
    (feedbackID f ct1 ct2 : String) (B1 B2 : Bytes)
    (hup1 : e1.uploadErr = none) (hup2 : e2.uploadErr = none)
    (hdownload : denv.downloadErr = none) (hinfo : denv.infoErr = none) :
    ∃ (info : AssetInfo) (assets : List AssetInfo),
      (FeedbackService.DownloadAsset
        (FeedbackService.UploadAsset (FeedbackService.UploadAsset s e1 feedbackID f ct1 B1).2
          e2 feedbackID f ct2 B2).2 denv feedbackID f).1 = .ok (info, B2) ∧
      info.Filename = f ∧ info.Size = (B2.length : Int) ∧
      ((FeedbackService.UploadAsset (FeedbackService.UploadAsset s e1 feedbackID f ct1 B1).2
          e2 feedbackID f ct2 B2).2.bucket.filter
        (fun o => o.Key == MinIOClient.objectKey feedbackID ("assets/" ++ f))).map
          (fun o => o.Data) = [B2] ∧
      (FeedbackService.ListAssets
        (FeedbackService.UploadAsset (FeedbackService.UploadAsset s e1 feedbackID f ct1 B1).2
          e2 feedbackID f ct2 B2).2 none feedbackID).1 = .ok assets ∧
      assets.filter (fun a => a.Filename == f) =
        [{ Filename := f, Size := (B2.length : Int), ContentType := "",
           UploadedAt := e2.blobNow }] := by
  rw [UploadAsset_run s e1 feedbackID f ct1 B1 hup1]
  rw [UploadAsset_run _ e2 feedbackID f ct2 B2 hup2]
  refine ⟨_, _, congrArg Prod.fst (DownloadAsset_present _ denv feedbackID f _ hdownload hinfo
    (lookup_putObject _ _ _ _ _)), rfl, rfl, ?_, congrArg Prod.fst (ListAssets_run _ feedbackID),
    list_after_put _ _ _ _ _ _⟩
  simp only [filter_key_putObject, List.map_cons, List.map_nil]

/-- Witness of `asset_overwrite` on the sample inputs. -/
theorem asset_overwrite_witness :
    (uploadAllOk.upload.uploadErr = none ∧ downloadAllOk.downloadErr = none ∧
     downloadAllOk.infoErr = none) ∧
    ∃ (info : AssetInfo) (assets : List AssetInfo),
      (FeedbackService.DownloadAsset
        (FeedbackService.UploadAsset
          (FeedbackService.UploadAsset oneDoc uploadAllOk.upload "doc-1" "a.png" "image/png"
            (ascii "abc")).2
          uploadAllOk.upload "doc-1" "a.png" "image/png" (ascii "xyz")).2 downloadAllOk "doc-1"
            "a.png").1 = .ok (info, ascii "xyz") ∧
      info.Filename = "a.png" ∧ info.Size = ((ascii "xyz").length : Int) ∧
      ((FeedbackService.UploadAsset
          (FeedbackService.UploadAsset oneDoc uploadAllOk.upload "doc-1" "a.png" "image/png"
            (ascii "abc")).2
          uploadAllOk.upload "doc-1" "a.png" "image/png" (ascii "xyz")).2.bucket.filter
        (fun o => o.Key == MinIOClient.objectKey "doc-1" ("assets/" ++ "a.png"))).map
          (fun o => o.Data) = [ascii "xyz"] ∧
      (FeedbackService.ListAssets
        (FeedbackService.UploadAsset
          (FeedbackService.UploadAsset oneDoc uploadAllOk.upload "doc-1" "a.png" "image/png"
            (ascii "abc")).2
          uploadAllOk.upload "doc-1" "a.png" "image/png" (ascii "xyz")).2 none "doc-1").1 =
            .ok assets ∧
      assets.filter (fun a => a.Filename == "a.png") =
        [{ Filename := "a.png", Size := ((ascii "xyz").length : Int), ContentType := "",
           UploadedAt := uploadAllOk.upload.blobNow }] :=
  ⟨⟨rfl, rfl, rfl⟩,
   asset_overwrite oneDoc uploadAllOk.upload uploadAllOk.upload downloadAllOk "doc-1" "a.png"
     "image/png" "image/png" (ascii "abc") (ascii "xyz") rfl rfl rfl rfl⟩

/-! ## C10: the chunks of an upload -/

/-- The receive loop on chunk frames followed by a graceful end appends the
chunks in arrival order. -/
theorem recvChunks_chunks (buffer : Bytes) (chunks : List Bytes) :
    FeedbackGRPCServer.recvChunks buffer (chunks.map proto.UploadAssetRequest.Chunk) .eof =
      .ok (buffer ++ chunks.flatten) := by
  induction chunks generalizing buffer with
  | nil => simp [FeedbackGRPCServer.recvChunks]
  | cons c rest ih =>
    simp [FeedbackGRPCServer.recvChunks, proto.UploadAssetRequest.GetChunk, ih]

/-- For a metadata frame whose `TotalSize` is a capacity `make` accepts and the
machine grants, followed by chunk frames and a graceful end, the payload handed to the
service's `UploadAsset` is the concatenation of the chunks in arrival order,
and with the put and the reply succeeding the response reports the filename
of the metadata, the length of the payload, and success. -/
theorem UploadAsset_reconstructs (s : Stores) (env : UploadStreamEnv)
    (metadata : proto.AssetMetadata) (chunks : List Bytes)
    (hlow : 0 ≤ metadata.TotalSize) (hhigh : metadata.TotalSize ≤ maxAlloc)
    (hgranted : metadata.TotalSize ≤ env.memory)
    (hupload : env.upload.uploadErr = none) (hsend : env.sendErr = none) :
    (FeedbackGRPCServer.UploadAsset s env
        { frames := .Metadata metadata :: chunks.map proto.UploadAssetRequest.Chunk,
          ending := .eof }).result =
      .ok { Filename := metadata.Filename, Size := (chunks.flatten.length : Int),
            Success := true } ∧
    (FeedbackGRPCServer.UploadAsset s env
        { frames := .Metadata metadata :: chunks.map proto.UploadAssetRequest.Chunk,
          ending := .eof }).stores =
      (FeedbackService.UploadAsset s env.upload metadata.FeedbackId metadata.Filename
        metadata.ContentType chunks.flatten).2 := by
  have hcap : ¬ (metadata.TotalSize < 0 ∨ maxAlloc < metadata.TotalSize) := by omega
  have hmem : ¬ (env.memory < metadata.TotalSize) := by omega
  unfold FeedbackGRPCServer.UploadAsset
  simp only [proto.UploadAssetRequest.GetMetadata, hcap, hmem, ↓reduceIte, recvChunks_chunks,
    List.nil_append, UploadAsset_run s env.upload _ _ _ _ hupload, hsend, and_self]

/-- C10. The stream `abc`, `def`, `ghi` announced with size 9 is stored as
`abcdefghi` and answered with the filename, 9 and success; the same stream
announced with size -1 makes the handler panic when it allocates the buffer:
no chunk is read, nothing is handed to the service, nothing is stored and no
response is sent. -/
theorem upload_panics_on_negative_size :
    (FeedbackGRPCServer.UploadAsset emptyStores uploadAllOk (sampleUpload 9)).result =
      .ok { Filename := "a.txt", Size := 9, Success := true } ∧
    (FeedbackGRPCServer.UploadAsset emptyStores uploadAllOk (sampleUpload 9)).stores.bucket =
      [{ Key := "doc-1/assets/a.txt", Data := ascii "abcdefghi", ContentType := "text/plain",
         LastModified := 2000 }] ∧
    (FeedbackGRPCServer.UploadAsset emptyStores uploadAllOk (sampleUpload (-1))).result =
      .panic "runtime error: makeslice: cap out of range" ∧
    (FeedbackGRPCServer.UploadAsset emptyStores uploadAllOk (sampleUpload (-1))).stores =
      emptyStores := by
  decide

/-! ## C11: an upload that does not start with metadata -/

/-- C11. For every upload stream whose first frame is not a metadata frame,
whatever frames follow and however the stream ends, the gRPC `UploadAsset`
fails with the protocol error `first message must contain metadata`, and the
table and the bucket are unchanged: the service's `UploadAsset` is not
called. -/
theorem upload_needs_leading_metadata (s : Stores) (env : UploadStreamEnv)
    (req : proto.UploadAssetRequest) (rest : List proto.UploadAssetRequest) (ending : GoError)
    (hfirst : req.GetMetadata = none) :
    (FeedbackGRPCServer.UploadAsset s env { frames := req :: rest, ending := ending }).result =
      .error (.errorString "first message must contain metadata") ∧
    (FeedbackGRPCServer.UploadAsset s env { frames := req :: rest, ending := ending }).stores =
      s ∧
    (FeedbackGRPCServer.UploadAsset s env { frames := req :: rest, ending := ending }).log =
      [] := by
  simp only [FeedbackGRPCServer.UploadAsset, hfirst, and_self]

/-- Witness of `upload_needs_leading_metadata` on the sample inputs. -/
theorem upload_needs_leading_metadata_witness :
    (proto.UploadAssetRequest.Chunk (ascii "abc")).GetMetadata = none ∧
    (FeedbackGRPCServer.UploadAsset oneDoc uploadAllOk chunkFirstUpload).result =
      .error (.errorString "first message must contain metadata") ∧
    (FeedbackGRPCServer.UploadAsset oneDoc uploadAllOk chunkFirstUpload).stores = oneDoc :=
  have h := upload_needs_leading_metadata oneDoc uploadAllOk (.Chunk (ascii "abc"))
    [.Metadata { FeedbackId := "doc-1", Filename := "a.txt", ContentType := "text/plain",
                 TotalSize := 6 }, .Chunk (ascii "def")] .eof rfl
  ⟨rfl, h.1, h.2.1⟩

/-! ## C12: the frames of a download -/

theorem chunkSize_eq : FeedbackGRPCServer.chunkSize = 65536 := rfl

theorem stop_eq_min (data : Bytes) (i : Nat) :
    (if i + 65536 > data.length then data.length else i + 65536) =
      min (i + (0 + 1) * 65536) data.length := by
  split <;> omega

theorem rounds_succ (data : Bytes) (i : Nat) (hi : i < data.length) :
    (data.length - i + 65535) / 65536 = (data.length - (i + 65536) + 65535) / 65536 + 1 := by
  omega

theorem chunkFrame_shift (data : Bytes) (i : Nat) :
    (chunkFrame data i ∘ Nat.succ) = chunkFrame data (i + 65536) := by
  funext k
  have h1 : i + (k + 1) * 65536 = i + 65536 + k * 65536 := by omega
  have h2 : i + (k + 1 + 1) * 65536 = i + 65536 + (k + 1) * 65536 := by omega
  simp only [Function.comp, chunkFrame, Nat.succ_eq_add_one, h1, h2]

theorem chunkFrame_zero (data : Bytes) (i : Nat) :
    proto.DownloadAssetResponse.Chunk
        (FeedbackGRPCServer.slice data i (min (i + (0 + 1) * 65536) data.length)) =
      chunkFrame data i 0 := by
  simp [chunkFrame]

/-- With every `Send` succeeding and fuel for every round, the loop started at
offset `i` sends one chunk frame for each started block of 65536 bytes from
`i` on. -/
theorem sendChunks_all_sent (sendErr : Nat → Option GoError) (data : Bytes)
    (hsend : ∀ n, sendErr n = none) (fuel : Nat) :
    ∀ i sent, (data.length - i + 65535) / 65536 ≤ fuel →
      FeedbackGRPCServer.sendChunks sendErr data fuel i sent =
        ((List.range ((data.length - i + 65535) / 65536)).map (chunkFrame data i), none) := by
  induction fuel with
  | zero =>
    intro i sent h
    have hq : (data.length - i + 65535) / 65536 = 0 := by omega
    simp [FeedbackGRPCServer.sendChunks, hq]
  | succ fuel ih =>
    intro i sent h
    rw [FeedbackGRPCServer.sendChunks]
    by_cases hi : i < data.length
    · have hq := rounds_succ data i hi
      have hih := ih (i + 65536) (sent + 1) (by omega)
      simp only [hi, ↓reduceIte, hsend, chunkSize_eq]
      rw [hih, hq, List.range_succ_eq_map, List.map_cons, List.map_map, chunkFrame_shift,
        stop_eq_min, chunkFrame_zero]
    · have hq : (data.length - i + 65535) / 65536 = 0 := by omega
      simp [hi, hq]

/-- A chunk as bytes dropped and taken: the block of `c` bytes number `k`. -/
theorem slice_block (data : Bytes) (c k : Nat) :
    FeedbackGRPCServer.slice data (k * c) (min ((k + 1) * c) data.length) =
      (data.drop (k * c)).take c := by
  unfold FeedbackGRPCServer.slice
  rw [List.drop_take, List.take_eq_take, List.length_drop]
  have h : (k + 1) * c = k * c + c := by ring
  omega

/-- The blocks of `c` bytes of a list, `q` of them, joined, are its first
`q * c` bytes. -/
theorem flatten_blocks (c q : Nat) : ∀ l : Bytes,
    ((List.range q).map (fun k => (l.drop (k * c)).take c)).flatten = l.take (q * c) := by
  induction q with
  | zero => intro l; simp
  | succ q ih =>
    intro l
    have hfun : ((fun k => (l.drop (k * c)).take c) ∘ Nat.succ) =
        fun k => ((l.drop c).drop (k * c)).take c := by
      funext k
      have h : (k + 1) * c = c + k * c := by ring
      simp only [Function.comp, Nat.succ_eq_add_one, List.drop_drop, h]
    have hq : (q + 1) * c = c + q * c := by ring
    rw [List.range_succ_eq_map, List.map_cons, List.map_map, hfun, List.flatten_cons, ih,
      hq, List.take_add]
    simp

/-- The payload of a download cut into blocks of 65536 bytes. -/
theorem blocks_of_payload (data : Bytes) :
    ((List.range ((data.length + 65535) / 65536)).map
      (fun k => FeedbackGRPCServer.slice data (k * 65536)
        (min ((k + 1) * 65536) data.length))).flatten = data := by
  have hfun : (fun k => FeedbackGRPCServer.slice data (k * 65536)
      (min ((k + 1) * 65536) data.length)) = fun k => (data.drop (k * 65536)).take 65536 := by
    funext k
    exact slice_block data 65536 k
  rw [hfun, flatten_blocks]
  apply List.take_of_length_le
  omega

/-- The length of a slice. -/
theorem length_slice (data : Bytes) (i j : Nat) :
    (FeedbackGRPCServer.slice data i j).length = min j data.length - i := by
  simp [FeedbackGRPCServer.slice]

/-- The gRPC `DownloadAsset` on an asset the service retrieves, with every
`Send` succeeding. -/
theorem DownloadAsset_run (s : Stores) (env : DownloadStreamEnv)
    (req : proto.DownloadAssetRequest) (info : AssetInfo) (data : Bytes)
    (hasset : (FeedbackService.DownloadAsset s env.download req.FeedbackId req.Filename).1 =
      .ok (info, data))
    (hsend : ∀ n, env.sendErr n = none) :
    (FeedbackGRPCServer.DownloadAsset s env req).result = none ∧
    (FeedbackGRPCServer.DownloadAsset s env req).sent =
      .Info { Filename := info.Filename, Size := info.Size, ContentType := info.ContentType,
              UploadedAt := info.UploadedAt.Unix } ::
        (List.range ((data.length + 65535) / 65536)).map (chunkFrame data 0) := by
  unfold FeedbackGRPCServer.DownloadAsset
  cases hd : FeedbackService.DownloadAsset s env.download req.FeedbackId req.Filename with
  | mk res st =>
    rw [hd] at hasset
    simp only at hasset
    subst hasset
    have hloop := sendChunks_all_sent env.sendErr data hsend data.length 0 1 (by omega)
    simp only [hsend, hloop, Nat.sub_zero, and_self]

/-- C12. When the service's `DownloadAsset` retrieves an asset with payload
`data` of `n` bytes and every `Send` succeeds, the gRPC `DownloadAsset` ends
without error and sends exactly one metadata frame, with the filename, size,
content type and upload time of the asset, followed by exactly
`ceil(n / 65536)` chunk frames; chunk `k`, counted from 0, is the bytes of
the payload from `k * 65536` up to `min ((k + 1) * 65536) n`; hence every
chunk but the last has 65536 bytes, the last is not empty and has at most
65536 bytes, an empty payload gives no chunk, and the chunks joined in order
are the payload. -/
theorem download_frames (s : Stores) (env : DownloadStreamEnv)
    (req : proto.DownloadAssetRequest) (info : AssetInfo) (data : Bytes)
    (hasset : (FeedbackService.DownloadAsset s env.download req.FeedbackId req.Filename).1 =
      .ok (info, data))
    (hsend : ∀ n, env.sendErr n = none) :
    ∃ chunks : List Bytes,
      (FeedbackGRPCServer.DownloadAsset s env req).result = none ∧
      (FeedbackGRPCServer.DownloadAsset s env req).sent =
        .Info { Filename := info.Filename, Size := info.Size, ContentType := info.ContentType,
                UploadedAt := info.UploadedAt.Unix } ::
          chunks.map proto.DownloadAssetResponse.Chunk ∧
      chunks.length = (data.length + 65535) / 65536 ∧
      (∀ k c, chunks[k]? = some c →
        c = FeedbackGRPCServer.slice data (k * 65536) (min ((k + 1) * 65536) data.length) ∧
        (k + 1 < chunks.length → c.length = 65536) ∧
        (k + 1 = chunks.length → 0 < c.length ∧ c.length ≤ 65536)) ∧
      (data = [] → chunks = []) ∧
      chunks.flatten = data := by
  obtain ⟨hres, hsent⟩ := DownloadAsset_run s env req info data hasset hsend
  have hframe : chunkFrame data 0 = proto.DownloadAssetResponse.Chunk ∘
      fun k => FeedbackGRPCServer.slice data (k * 65536) (min ((k + 1) * 65536) data.length) := by
    funext k
    simp [chunkFrame]
  have hlen : ((List.range ((data.length + 65535) / 65536)).map
      (fun k => FeedbackGRPCServer.slice data (k * 65536)
        (min ((k + 1) * 65536) data.length))).length = (data.length + 65535) / 65536 := by
    simp
  refine ⟨(List.range ((data.length + 65535) / 65536)).map
    (fun k => FeedbackGRPCServer.slice data (k * 65536) (min ((k + 1) * 65536) data.length)),
    hres, ?_, hlen, ?_, ?_, blocks_of_payload data⟩
  · rw [hsent, hframe, List.map_map]
  · intro k c hk
    rw [List.getElem?_map] at hk
    rw [hlen]
    cases hr : (List.range ((data.length + 65535) / 65536))[k]? with
    | none => simp [hr] at hk
    | some j =>
      obtain ⟨hlt, hjk⟩ := List.getElem?_eq_some.mp hr
      simp only [List.length_range] at hlt
      simp only [List.getElem_range] at hjk
      subst hjk
      simp only [hr, Option.map_some', Option.some.injEq] at hk
      subst hk
      refine ⟨rfl, ?_, ?_⟩
      · intro h
        rw [length_slice]
        omega
      · intro h
        rw [length_slice]
        omega
  · intro h
    simp [h]

/-- Witness of `download_frames`: the three bytes of `a.png` of `doc-1`. -/
theorem download_frames_witness :
    ((FeedbackService.DownloadAsset oneDoc downloadStreamAllOk.download samplePng.FeedbackId
        samplePng.Filename).1 =
      .ok ({ Filename := "a.png", Size := 3, ContentType := "image/png", UploadedAt := 1002 },
           [1, 2, 3]) ∧
     ∀ n, downloadStreamAllOk.sendErr n = none) ∧
    ∃ chunks : List Bytes,
      (FeedbackGRPCServer.DownloadAsset oneDoc downloadStreamAllOk samplePng).result = none ∧
      (FeedbackGRPCServer.DownloadAsset oneDoc downloadStreamAllOk samplePng).sent =
        .Info { Filename := "a.png", Size := 3, ContentType := "image/png",
                UploadedAt := Time.Unix 1002 } ::
          chunks.map proto.DownloadAssetResponse.Chunk ∧
      chunks.length = (([1, 2, 3] : Bytes).length + 65535) / 65536 ∧
      (∀ k c, chunks[k]? = some c →
        c = FeedbackGRPCServer.slice [1, 2, 3] (k * 65536)
          (min ((k + 1) * 65536) ([1, 2, 3] : Bytes).length) ∧
        (k + 1 < chunks.length → c.length = 65536) ∧
        (k + 1 = chunks.length → 0 < c.length ∧ c.length ≤ 65536)) ∧
      (([1, 2, 3] : Bytes) = [] → chunks = []) ∧
      chunks.flatten = [1, 2, 3] :=
  ⟨⟨rfl, fun _ => rfl⟩,
   download_frames oneDoc downloadStreamAllOk samplePng
     { Filename := "a.png", Size := 3, ContentType := "image/png", UploadedAt := 1002 }
     [1, 2, 3] rfl (fun _ => rfl)⟩

/-! ## C20: the pagination passed to the repository -/

/-- The wrap-around keeps a value that fits 64 bits. -/
theorem wrapInt64_of_fits (x : Int) (hlow : -9223372036854775808 ≤ x)
    (hhigh : x < 9223372036854775808) : wrapInt64 x = x := by
  unfold wrapInt64
  omega

/-- For a page and a limit of at most 32 bits, after the defaults are set, the
offset fits 64 bits with room to spare. -/
theorem offset_fits (page limit : Int) (hp1 : 1 ≤ page) (hp2 : page ≤ 2147483647)
    (hl1 : 1 ≤ limit) (hl2 : limit ≤ 2147483647) :
    0 ≤ (page - 1) * limit ∧ (page - 1) * limit ≤ 4611686011984936962 := by
  constructor
  · exact Int.mul_nonneg (by omega) (by omega)
  · calc (page - 1) * limit ≤ 2147483646 * 2147483647 :=
          Int.mul_le_mul (by omega) hl2 (by omega) (by omega)
      _ = 4611686011984936962 := by norm_num

/-- For such a page and limit the two wrap-arounds of the offset change
nothing. -/
theorem offset_no_wrap (page limit : Int) (hp1 : 1 ≤ page) (hp2 : page ≤ 2147483647)
    (hl1 : 1 ≤ limit) (hl2 : limit ≤ 2147483647) :
    wrapInt64 (wrapInt64 (page - 1) * limit) = (page - 1) * limit := by
  obtain ⟨h0, hmax⟩ := offset_fits page limit hp1 hp2 hl1 hl2
  rw [wrapInt64_of_fits (page - 1) (by omega) (by omega)]
  generalize (page - 1) * limit = offset at h0 hmax
  exact wrapInt64_of_fits offset (by omega) (by omega)

/-- C20. `ListUserFeedbacks` replaces a limit `<= 0` by 20 and a page `<= 0`
by 1 before it computes the offset; for every signed 32-bit page and limit of
a gRPC request, the limit passed to the repository is the limit so replaced
and is at least 1, and the offset passed is `(page' - 1) * limit'`, which is
not negative and fits a signed 64-bit integer, so that the `int` arithmetic
does not wrap. -/
theorem pagination_defaults_no_overflow (s : Stores) (env : ListEnv)
    (req : proto.ListUserFeedbacksRequest)
    (hpage : -2147483648 ≤ req.Page ∧ req.Page ≤ 2147483647)
    (hlimit : -2147483648 ≤ req.Limit ∧ req.Limit ≤ 2147483647) :
    ∃ page' limit' : Int,
      limit' = (if req.Limit ≤ 0 then 20 else req.Limit) ∧
      page' = (if req.Page ≤ 0 then 1 else req.Page) ∧
      1 ≤ limit' ∧
      0 ≤ (page' - 1) * limit' ∧ (page' - 1) * limit' < 2 ^ 63 ∧
      FeedbackService.pagination
          { UserID := req.UserId, LabID := req.LabId, Page := req.Page, Limit := req.Limit } =
        ((page' - 1) * limit', limit') ∧
      (FeedbackService.ListUserFeedbacks s env
          { UserID := req.UserId, LabID := req.LabId, Page := req.Page,
            Limit := req.Limit }).1 =
        FeedbackRepository.ListByUserID s.db env req.UserId req.LabId ((page' - 1) * limit')
          limit' := by
  have hl : 1 ≤ (if req.Limit ≤ 0 then (20 : Int) else req.Limit) ∧
      (if req.Limit ≤ 0 then (20 : Int) else req.Limit) ≤ 2147483647 := by
    split <;> omega
  have hp : 1 ≤ (if req.Page ≤ 0 then (1 : Int) else req.Page) ∧
      (if req.Page ≤ 0 then (1 : Int) else req.Page) ≤ 2147483647 := by
    split <;> omega
  obtain ⟨h0, hmax⟩ := offset_fits _ _ hp.1 hp.2 hl.1 hl.2
  have hpag : FeedbackService.pagination
      { UserID := req.UserId, LabID := req.LabId, Page := req.Page, Limit := req.Limit } =
      (((if req.Page ≤ 0 then (1 : Int) else req.Page) - 1) *
        (if req.Limit ≤ 0 then (20 : Int) else req.Limit),
       (if req.Limit ≤ 0 then (20 : Int) else req.Limit)) := by
    simp only [FeedbackService.pagination]
    rw [offset_no_wrap _ _ hp.1 hp.2 hl.1 hl.2]
  refine ⟨_, _, rfl, rfl, hl.1, h0, lt_of_le_of_lt hmax (by norm_num), hpag, ?_⟩
  simp only [FeedbackService.ListUserFeedbacks, hpag]

/-- Witness of `pagination_defaults_no_overflow`: the largest page and limit. -/
theorem pagination_defaults_no_overflow_witness :
    ((-2147483648 ≤ largestPage.Page ∧ largestPage.Page ≤ 2147483647) ∧
     (-2147483648 ≤ largestPage.Limit ∧ largestPage.Limit ≤ 2147483647)) ∧
    ∃ page' limit' : Int,
      limit' = (if largestPage.Limit ≤ 0 then 20 else largestPage.Limit) ∧
      page' = (if largestPage.Page ≤ 0 then 1 else largestPage.Page) ∧
      1 ≤ limit' ∧
      0 ≤ (page' - 1) * limit' ∧ (page' - 1) * limit' < 2 ^ 63 ∧
      FeedbackService.pagination
          { UserID := largestPage.UserId, LabID := largestPage.LabId, Page := largestPage.Page,
            Limit := largestPage.Limit } =
        ((page' - 1) * limit', limit') ∧
      (FeedbackService.ListUserFeedbacks fiveDocs listAllOk
          { UserID := largestPage.UserId, LabID := largestPage.LabId, Page := largestPage.Page,
            Limit := largestPage.Limit }).1 =
        FeedbackRepository.ListByUserID fiveDocs.db listAllOk largestPage.UserId
          largestPage.LabId ((page' - 1) * limit') limit' :=
  ⟨⟨⟨by decide, by decide⟩, ⟨by decide, by decide⟩⟩,
   pagination_defaults_no_overflow fiveDocs listAllOk largestPage
     ⟨by decide, by decide⟩ ⟨by decide, by decide⟩⟩

/-! ## C13: a page of the documents of a user -/

/-- C16. For an `UpdateFeedback` with a non-empty content on an existing
document whose record is read: if the relational update succeeds and the
blob write fails, `UpdateFeedback` returns an error wrapping the blob-write
error, the row keeps the new title and contentHash (nothing is rolled back)
and the bucket is unchanged; if the relational update fails,
`UpdateFeedback` returns an error wrapping that failure and neither the table
nor the bucket changes, whatever the blob write would have answered: the
relational update comes first and no blob write is issued after its
failure. -/
theorem update_blob_failure_not_rolled_back (s : Stores) (env : UpdateEnv)
    (params : UpdateFeedbackParams) (r : Row)
    (hcontent : params.Content ≠ []) (hquery : env.queryErr = none)
    (hexists : s.db.find? (fun x => x.id == params.ID) = some r) :
    (∀ cause, env.updateErr = none → env.uploadErr = some cause →
      (FeedbackService.UpdateFeedback s env params).1 =
        .error (.wrapError "failed to update content in storage"
          (.wrapError "failed to put object" cause)) ∧
      (FeedbackService.UpdateFeedback s env params).2.db.find? (fun x => x.id == params.ID) =
        some { r with title := (if params.Title != "" then params.Title else r.title),
                      content_hash := params.ContentHash, updated_at := env.dbNow } ∧
      (FeedbackService.UpdateFeedback s env params).2.bucket = s.bucket) ∧
    (∀ cause, env.updateErr = some cause →
      (FeedbackService.UpdateFeedback s env params).1 =
        .error (.wrapError "failed to update feedback in database" cause) ∧
      (FeedbackService.UpdateFeedback s env params).2 = s) := by
  have hid := find_some_id s.db params.ID r hexists
  have hany := any_of_find_some s.db params.ID r hexists
  have hc : (params.Content != []) = true := by simpa using hcontent
  constructor
  · intro cause hupdate hupload
    have hrun : FeedbackService.UpdateFeedback s env params =
        (.error (.wrapError "failed to update content in storage"
          (.wrapError "failed to put object" cause)),
         { db := updatedTable s.db env.dbNow params r, bucket := s.bucket }) := by
      unfold FeedbackService.UpdateFeedback FeedbackRepository.GetByID sqlSelectByID
        FeedbackRepository.Update sqlUpdate MinIOClient.UploadFile MinIOClient.PutObject
      simp only [hquery, hupdate, hupload, hexists, FeedbackFile.zero, updatedTable, newTitle,
        newHash, hc]
      by_cases ht : params.Title = "" <;> simp [ht, hid, hany]
    rw [hrun]
    refine ⟨rfl, ?_, rfl⟩
    have hfind := find_updatedTable s.db env.dbNow params r hexists
    simpa [newTitle, newHash, hc] using hfind
  · intro cause hupdate
    have hrun : FeedbackService.UpdateFeedback s env params =
        (.error (.wrapError "failed to update feedback in database" cause), s) := by
      unfold FeedbackService.UpdateFeedback FeedbackRepository.GetByID sqlSelectByID
        FeedbackRepository.Update sqlUpdate
      simp only [hquery, hupdate, hexists]
    rw [hrun]
    exact ⟨rfl, rfl⟩

/-- Witness of `update_blob_failure_not_rolled_back`: the update of `doc-1`
with content `new`, once with the blob write failing and once with the
relational update failing. -/
theorem update_blob_failure_not_rolled_back_witness :
    ((updateParams contentOnly).Content ≠ [] ∧ updatePutFails.queryErr = none ∧
     oneDoc.db.find? (fun x => x.id == (updateParams contentOnly).ID) = some oneDocRow) ∧
    ((FeedbackService.UpdateFeedback oneDoc updatePutFails (updateParams contentOnly)).1 =
        .error (.wrapError "failed to update content in storage"
          (.wrapError "failed to put object" (.errorString "connection reset"))) ∧
      (FeedbackService.UpdateFeedback oneDoc updatePutFails
          (updateParams contentOnly)).2.db.find?
          (fun x => x.id == (updateParams contentOnly).ID) =
        some { oneDocRow with
          title := (if (updateParams contentOnly).Title != "" then
            (updateParams contentOnly).Title else oneDocRow.title),
          content_hash := (updateParams contentOnly).ContentHash,
          updated_at := updatePutFails.dbNow } ∧
      (FeedbackService.UpdateFeedback oneDoc updatePutFails (updateParams contentOnly)).2.bucket =
        oneDoc.bucket) ∧
    ((FeedbackService.UpdateFeedback oneDoc updateRelationalFails (updateParams contentOnly)).1 =
        .error (.wrapError "failed to update feedback in database"
          (.errorString "connection refused")) ∧
      (FeedbackService.UpdateFeedback oneDoc updateRelationalFails
          (updateParams contentOnly)).2 = oneDoc) :=
  ⟨⟨by decide, rfl, rfl⟩,
   (update_blob_failure_not_rolled_back oneDoc updatePutFails (updateParams contentOnly)
      oneDocRow (by decide) rfl rfl).1 (.errorString "connection reset") rfl rfl,
   (update_blob_failure_not_rolled_back oneDoc updateRelationalFails (updateParams contentOnly)
      oneDocRow (by decide) rfl rfl).2 (.errorString "connection refused") rfl⟩

/-! ## C17: the announced size of an upload -/

/-- C17. The stream `abc`, `def`, `ghi` is stored as `abcdefghi` and answered
with length 9 when the announced size is smaller (2), equal (9) or larger
(100), but for the announced size -1, and for one beyond the limit of the
runtime, the handler panics when it makes the buffer, and nothing is stored;
for the announced size 1 TiB on a machine that grants 1 GiB the runtime kills
the process. -/
theorem upload_size_hint_unchecked :
    (FeedbackGRPCServer.UploadAsset emptyStores uploadAllOk (sampleUpload 2)).result =
      .ok { Filename := "a.txt", Size := 9, Success := true } ∧
    (FeedbackGRPCServer.UploadAsset emptyStores uploadAllOk (sampleUpload 100)).result =
      .ok { Filename := "a.txt", Size := 9, Success := true } ∧
    (FeedbackGRPCServer.UploadAsset emptyStores uploadAllOk (sampleUpload 100)).stores.bucket =
      (FeedbackGRPCServer.UploadAsset emptyStores uploadAllOk (sampleUpload 9)).stores.bucket ∧
    (FeedbackGRPCServer.UploadAsset emptyStores uploadAllOk (sampleUpload (-1))).result =
      .panic "runtime error: makeslice: cap out of range" ∧
    (FeedbackGRPCServer.UploadAsset emptyStores uploadAllOk
        (sampleUpload 281474976710657)).result =
      .panic "runtime error: makeslice: cap out of range" ∧
    (FeedbackGRPCServer.UploadAsset emptyStores uploadAllOk (sampleUpload (-1))).stores.bucket =
      [] ∧
    (FeedbackGRPCServer.UploadAsset emptyStores uploadAllOk
        (sampleUpload 1099511627776)).result =
      .fatal "fatal error: runtime: out of memory" := by
  decide

/-! ## C19: a listing error in the prefix delete -/

/-- Whenever no removal is refused, `RemoveObjectsWithPrefix` returns `nil`,
also when the listing reported an error after `n` objects. -/
theorem RemoveObjectsWithPrefix_nil_on_listing_error (b : Bucket) (n : Nat) (pfx : String) :
    (MinIOClient.RemoveObjectsWithPrefix b (some n) (fun _ => none) pfx).2 = none := by
  simp [MinIOClient.RemoveObjectsWithPrefix]

/-- C19. On a bucket with the two objects of `doc-1`, when the listing of
`doc-1/` reports an error after the first object, `RemoveObjectsWithPrefix`
removes the object listed first, the asset `doc-1/assets/a.png`, leaves the
body `doc-1/content.md` and returns `nil`; when the listing fails at once it
removes nothing and returns `nil` as well. -/
theorem prefix_delete_swallows_listing_error :
    MinIOClient.RemoveObjectsWithPrefix oneDoc.bucket (some 1) (fun _ => none) "doc-1/" =
      ([{ Key := "doc-1/content.md", Data := [104, 105], ContentType := "text/markdown",
          LastModified := 1001 }], none) ∧
    MinIOClient.RemoveObjectsWithPrefix oneDoc.bucket (some 0) (fun _ => none) "doc-1/" =
      (oneDoc.bucket, none) ∧
    (MinIOClient.ListObjects oneDoc.bucket (some (.errorString "connection reset"))
        "doc-1/") =
      .error (.wrapError "failed to list objects" (.errorString "connection reset")) := by
  decide

/-! ## C18: a transport error during an upload -/

/-- The receive loop on a stream that ends with an error other than `io.EOF`
returns that error, whatever the frames and the buffer. -/
theorem recvChunks_transport_error (ending : GoError) (hne : ending ≠ .eof) :
    ∀ (frames : List proto.UploadAssetRequest) (buffer : Bytes),
      FeedbackGRPCServer.recvChunks buffer frames ending = .error ending := by
  intro frames
  induction frames with
  | nil => intro buffer; simp [FeedbackGRPCServer.recvChunks, hne]
  | cons req rest ih =>
    intro buffer
    unfold FeedbackGRPCServer.recvChunks
    cases req.GetChunk with
    | none => exact ih buffer
    | some chunk => exact ih (buffer ++ chunk)

/-- C18. For every upload stream that ends with a transport error instead of
a graceful end, the gRPC `UploadAsset` never answers with success and leaves
the table and the bucket unchanged: the service's `UploadAsset`, the only
blob write, is not called before the stream is complete.  And whenever a call
of `Recv` made by the handler returns an error other than `io.EOF`, at the
first call or after the metadata and any number of further frames, the
handler returns that error and the table and the bucket are unchanged. -/
theorem upload_transport_error_aborts (s : Stores) (env : UploadStreamEnv)
    (stream : UploadStream) :
    (stream.ending ≠ .eof →
      (FeedbackGRPCServer.UploadAsset s env stream).stores = s ∧
      ∀ resp, (FeedbackGRPCServer.UploadAsset s env stream).result ≠ .ok resp) ∧
    (∀ err, err ≠ .eof → Except.error err ∈ FeedbackGRPCServer.recvResults env stream →
      (FeedbackGRPCServer.UploadAsset s env stream).result = .error err ∧
      (FeedbackGRPCServer.UploadAsset s env stream).stores = s) := by
  constructor
  · intro hne
    unfold FeedbackGRPCServer.UploadAsset
    cases hf : stream.frames with
    | nil => simp
    | cons req rest =>
      cases hm : req.GetMetadata with
      | none => simp [hm]
      | some metadata =>
        by_cases hcap : metadata.TotalSize < 0 ∨ maxAlloc < metadata.TotalSize
        · simp [hm, hcap]
        · by_cases hmem : env.memory < metadata.TotalSize
          · simp [hm, hcap, hmem]
          · simp [hm, hcap, hmem, recvChunks_transport_error stream.ending hne]
  · intro err hne hrecv
    unfold FeedbackGRPCServer.recvResults at hrecv
    unfold FeedbackGRPCServer.UploadAsset
    cases hf : stream.frames with
    | nil =>
      simp only [hf, List.mem_singleton, Except.error.injEq] at hrecv
      simp [hrecv]
    | cons req rest =>
      cases hm : req.GetMetadata with
      | none => simp [hf, hm] at hrecv
      | some metadata =>
        by_cases hcap : metadata.TotalSize < 0 ∨ maxAlloc < metadata.TotalSize
        · simp [hf, hm, hcap] at hrecv
        · by_cases hmem : env.memory < metadata.TotalSize
          · simp [hf, hm, hcap, hmem] at hrecv
          · simp only [hf, hm, hcap, hmem, ↓reduceIte, List.mem_cons, List.mem_append,
              List.mem_map, List.mem_singleton, Except.error.injEq, false_or] at hrecv
            have hend : err = stream.ending := by
              rcases hrecv with h | ⟨_, _, h⟩ | h | h
              · cases h
              · cases h
              · exact h
              · cases h
            subst hend
            simp [hm, hcap, hmem, recvChunks_transport_error stream.ending hne]

/-- Witness of `upload_transport_error_aborts`: the transport breaks after the
metadata and one chunk. -/
theorem upload_transport_error_aborts_witness :
    (brokenUpload.ending ≠ .eof ∧
     Except.error (.errorString "connection reset") ∈
       FeedbackGRPCServer.recvResults uploadAllOk brokenUpload) ∧
    ((FeedbackGRPCServer.UploadAsset oneDoc uploadAllOk brokenUpload).stores = oneDoc ∧
      ∀ resp, (FeedbackGRPCServer.UploadAsset oneDoc uploadAllOk brokenUpload).result ≠
        .ok resp) ∧
    ((FeedbackGRPCServer.UploadAsset oneDoc uploadAllOk brokenUpload).result =
        .error (.errorString "connection reset") ∧
      (FeedbackGRPCServer.UploadAsset oneDoc uploadAllOk brokenUpload).stores = oneDoc) :=
  ⟨⟨by decide, by decide⟩,
   (upload_transport_error_aborts oneDoc uploadAllOk brokenUpload).1 (by decide),
   (upload_transport_error_aborts oneDoc uploadAllOk brokenUpload).2
     (.errorString "connection reset") (by decide) (by decide)⟩

/-! ## Lemmas on the handlers that change the stores -/

theorem objectKey_injective (a b path : String)
    (h : MinIOClient.objectKey a path = MinIOClient.objectKey b path) : a = b := by
  have hd := congrArg String.data h
  simp only [MinIOClient.objectKey, String.data_append, List.append_assoc] at hd
  exact String.ext (List.append_cancel_right hd)

theorem startsWith_objectKey (id path : String) :
    startsWith (id ++ "/") (MinIOClient.objectKey id path) = true := by
  rw [startsWith_iff]
  simp only [MinIOClient.objectKey, String.data_append]
  exact List.prefix_append _ _

theorem mem_putObject (b : Bucket) (now : Time) (key : String) (data : Bytes)
    (contentType : String) (o : StoredObject) :
    o ∈ b.putObject now key data contentType ↔
      (o ∈ b ∧ o.Key ≠ key) ∨
      o = { Key := key, Data := data, ContentType := contentType, LastModified := now } := by
  simp [Bucket.putObject, List.mem_append, List.mem_filter]

theorem mem_removeKeys (b : Bucket) (keys : List String) (o : StoredObject)
    (h : o ∈ b.removeKeys keys) : o ∈ b :=
  (List.mem_filter.mp h).1

/-- The table after `Delete`: unchanged when the call fails, without the rows
of the id otherwise. -/
theorem Delete_db (db : Table) (fault : Option GoError) (id : String) :
    (fault ≠ none ∧ (FeedbackRepository.Delete db fault id).1 = db) ∨
    (fault = none ∧
      (FeedbackRepository.Delete db fault id).1 = db.filter (fun x => !(x.id == id))) := by
  unfold FeedbackRepository.Delete sqlDelete
  cases fault with
  | some e => left; exact ⟨by simp, rfl⟩
  | none =>
    right
    refine ⟨rfl, ?_⟩
    simp only
    split <;> rfl

/-- The stores after the gRPC `CreateFeedback` are those after the service's. -/
theorem grpc_CreateFeedback_stores (s : Stores) (env : CreateEnv)
    (req : proto.CreateFeedbackRequest) :
    (FeedbackGRPCServer.CreateFeedback s env req).stores =
      (FeedbackService.CreateFeedback s env (createParams req)).2 := by
  unfold FeedbackGRPCServer.CreateFeedback
  simp only [← createParams.eq_1]
  cases hr : FeedbackService.CreateFeedback s env (createParams req) with
  | mk res st => cases res <;> rfl

/-- The stores after the gRPC `UpdateFeedback` are those after the service's. -/
theorem grpc_UpdateFeedback_stores (s : Stores) (env : UpdateEnv)
    (req : proto.UpdateFeedbackRequest) :
    (FeedbackGRPCServer.UpdateFeedback s env req).stores =
      (FeedbackService.UpdateFeedback s env (updateParams req)).2 := by
  unfold FeedbackGRPCServer.UpdateFeedback
  simp only [← updateParams.eq_1]
  cases hr : FeedbackService.UpdateFeedback s env (updateParams req) with
  | mk res st => cases res <;> rfl

/-- The stores after the gRPC `DeleteFeedback` are those after the service's. -/
theorem grpc_DeleteFeedback_stores (s : Stores) (env : DeleteEnv) (id : String) :
    (FeedbackGRPCServer.DeleteFeedback s env id).stores =
      (FeedbackService.DeleteFeedback s env id).2 := by
  unfold FeedbackGRPCServer.DeleteFeedback
  cases hr : FeedbackService.DeleteFeedback s env id with
  | mk res st => cases res <;> rfl

/-- The three ways `CreateFeedback` leaves the stores: unchanged when the
insert fails; with the table that the compensating delete leaves and the bucket
unchanged when the put fails; with the row appended and the body put when both
succeed. -/
theorem CreateFeedback_stores (s : Stores) (env : CreateEnv) (params : CreateFeedbackParams) :
    ((env.createErr ≠ none ∨ s.db.any (fun r => r.id == env.uuid) = true) ∧
      (FeedbackService.CreateFeedback s env params).2 = s) ∨
    (env.createErr = none ∧ s.db.any (fun r => r.id == env.uuid) = false ∧
      env.uploadErr ≠ none ∧
      (FeedbackService.CreateFeedback s env params).2 =
        { db := (FeedbackRepository.Delete (s.db ++ [createdRow env params]) env.deleteErr
            env.uuid).1,
          bucket := s.bucket }) ∨
    (env.createErr = none ∧ s.db.any (fun r => r.id == env.uuid) = false ∧
      env.uploadErr = none ∧
      (FeedbackService.CreateFeedback s env params).2 =
        { db := s.db ++ [createdRow env params],
          bucket := s.bucket.putObject env.blobNow
            (MinIOClient.objectKey env.uuid "content.md") params.Content "text/markdown" }) := by
  unfold FeedbackService.CreateFeedback FeedbackRepository.Create sqlInsert
    MinIOClient.UploadFile MinIOClient.PutObject
  cases hc : env.createErr with
  | some e => left; exact ⟨Or.inl (by simp), rfl⟩
  | none =>
    cases ha : s.db.any (fun r => r.id == env.uuid) with
    | true =>
      left
      refine ⟨Or.inr rfl, ?_⟩
      simp only [ha, ↓reduceIte]
    | false =>
      right
      cases hu : env.uploadErr with
      | some e =>
        left
        refine ⟨rfl, rfl, by simp, ?_⟩
        simp only [ha, hu, Bool.false_eq_true, ↓reduceIte, createdRow, FeedbackFile.zero]
      | none =>
        right
        refine ⟨rfl, rfl, rfl, ?_⟩
        simp only [ha, hu, Bool.false_eq_true, ↓reduceIte, createdRow, FeedbackFile.zero]

/-- The ways `UpdateFeedback` leaves the stores: unchanged when the record is
not read or the relational update fails; with the row updated and the bucket
unchanged when there is no content or the put fails; with the row updated and
the body put otherwise. -/
theorem UpdateFeedback_stores (s : Stores) (env : UpdateEnv) (params : UpdateFeedbackParams) :
    (FeedbackService.UpdateFeedback s env params).2 = s ∨
    ∃ r, s.db.find? (fun x => x.id == params.ID) = some r ∧
      (((params.Content = [] ∨ env.uploadErr ≠ none) ∧
        (FeedbackService.UpdateFeedback s env params).2 =
          { db := updatedTable s.db env.dbNow params r, bucket := s.bucket }) ∨
       (params.Content ≠ [] ∧ env.uploadErr = none ∧
        (FeedbackService.UpdateFeedback s env params).2 =
          { db := updatedTable s.db env.dbNow params r,
            bucket := s.bucket.putObject env.blobNow
              (MinIOClient.objectKey params.ID "content.md") params.Content
              "text/markdown" })) := by
  unfold FeedbackService.UpdateFeedback FeedbackRepository.GetByID sqlSelectByID
    FeedbackRepository.Update sqlUpdate MinIOClient.UploadFile MinIOClient.PutObject
  cases hq : env.queryErr with
  | some e => left; rfl
  | none =>
    cases hr : s.db.find? (fun x => x.id == params.ID) with
    | none => left; rfl
    | some r =>
      have hid := find_some_id s.db params.ID r hr
      have hany := any_of_find_some s.db params.ID r hr
      cases hu : env.updateErr with
      | some e => left; simp only [hu]
      | none =>
        right
        refine ⟨r, rfl, ?_⟩
        by_cases hc : params.Content = []
        · left
          refine ⟨Or.inl hc, ?_⟩
          by_cases ht : params.Title = "" <;>
            simp [hc, ht, hid, hany, hu, FeedbackFile.zero, updatedTable, newTitle, newHash]
        · cases hp : env.uploadErr with
          | some e =>
            left
            refine ⟨Or.inr (by simp), ?_⟩
            by_cases ht : params.Title = "" <;>
              simp [hc, ht, hid, hany, hu, hp, FeedbackFile.zero, updatedTable, newTitle,
                newHash]
          | none =>
            right
            refine ⟨hc, rfl, ?_⟩
            by_cases ht : params.Title = "" <;>
              simp [hc, ht, hid, hany, hu, hp, FeedbackFile.zero, updatedTable, newTitle,
                newHash]

/-- After `DeleteFeedback`, whatever fails, every row left was there before and
every object left was there before. -/
theorem DeleteFeedback_shrinks (s : Stores) (env : DeleteEnv) (id : String) :
    (∀ r ∈ (FeedbackService.DeleteFeedback s env id).2.db, r ∈ s.db) ∧
    (∀ o ∈ (FeedbackService.DeleteFeedback s env id).2.bucket, o ∈ s.bucket) := by
  unfold FeedbackService.DeleteFeedback MinIOClient.DeleteFolder
  have hb : ∀ o ∈ (MinIOClient.RemoveObjectsWithPrefix s.bucket env.listErrAfter env.removeErr
      (id ++ "/")).1, o ∈ s.bucket := by
    intro o ho
    exact mem_removeKeys _ _ _ ho
  cases hrm : MinIOClient.RemoveObjectsWithPrefix s.bucket env.listErrAfter env.removeErr
      (id ++ "/") with
  | mk bucket rErr =>
    rw [hrm] at hb
    cases rErr with
    | some e => exact ⟨fun r hr => hr, hb⟩
    | none =>
      simp only
      rcases Delete_db s.db env.deleteErr id with ⟨_, hd⟩ | ⟨_, hd⟩
      · cases hdel : FeedbackRepository.Delete s.db env.deleteErr id with
        | mk db err =>
          rw [hdel] at hd
          simp only at hd
          subst hd
          cases err <;> exact ⟨fun r hr => hr, hb⟩
      · cases hdel : FeedbackRepository.Delete s.db env.deleteErr id with
        | mk db err =>
          rw [hdel] at hd
          simp only at hd
          subst hd
          cases err <;> exact ⟨fun r hr => (List.mem_filter.mp hr).1, hb⟩

theorem contains_eq_false_iff (keys : List String) (key : String) :
    keys.contains key = false ↔ key ∉ keys := by
  simp

/-- When the listing reports no error and no removal is refused,
`RemoveObjectsWithPrefix` removes exactly the objects under the key prefix and
returns `nil`. -/
theorem RemoveObjectsWithPrefix_clean (b : Bucket) (removeErr : String → Option GoError)
    (pfx : String) (hremove : ∀ key, removeErr key = none) :
    (MinIOClient.RemoveObjectsWithPrefix b none removeErr pfx).2 = none ∧
    ∀ o, o ∈ (MinIOClient.RemoveObjectsWithPrefix b none removeErr pfx).1 ↔
      o ∈ b ∧ startsWith pfx o.Key = false := by
  unfold MinIOClient.RemoveObjectsWithPrefix
  simp only [hremove, Option.isNone_none, List.filter_true, Option.map_none',
    List.findSome?_eq_none_iff, implies_true, true_and]
  intro o
  simp only [Bucket.removeKeys, mem_listObjects, List.mem_filter, Bool.not_eq_true',
    contains_eq_false_iff, List.mem_map, not_exists, not_and]
  constructor
  · rintro ⟨ho, hnot⟩
    refine ⟨ho, ?_⟩
    cases hs : startsWith pfx o.Key with
    | false => rfl
    | true => exact absurd rfl (hnot o ⟨ho, hs⟩)
  · rintro ⟨ho, hs⟩
    refine ⟨ho, ?_⟩
    rintro o' ⟨_, hs'⟩ hk
    rw [hk, hs] at hs'
    exact Bool.false_ne_true hs'

/-! ## C14: the digest of the stored body -/

/-- A `CreateFeedback` with a fresh identifier keeps the digest invariant,
whatever fails. -/
theorem create_keeps_hashes (s : Stores) (env : CreateEnv) (req : proto.CreateFeedbackRequest)
    (hinv : hashesAgree s) (hfresh : freshUUID s env.uuid) :
    hashesAgree (FeedbackGRPCServer.CreateFeedback s env req).stores := by
  rw [grpc_CreateFeedback_stores]
  obtain ⟨_, hnorow, hnoobj⟩ := hfresh
  have hrow : ∀ o ∈ s.bucket,
      o.Key ≠ MinIOClient.objectKey (createdRow env (createParams req)).id "content.md" := by
    intro o ho hk
    have h1 := hnoobj o ho
    rw [hk] at h1
    have h2 := startsWith_objectKey env.uuid "content.md"
    simp only [createdRow] at h1
    rw [h1] at h2
    exact Bool.false_ne_true h2
  rcases CreateFeedback_stores s env (createParams req) with
    ⟨_, h⟩ | ⟨_, _, _, h⟩ | ⟨_, _, _, h⟩
  · rw [h]; exact hinv
  · rw [h]
    intro r hr o ho hk
    have hmem : r ∈ s.db ++ [createdRow env (createParams req)] := by
      rcases Delete_db (s.db ++ [createdRow env (createParams req)]) env.deleteErr env.uuid with
        ⟨_, hd⟩ | ⟨_, hd⟩
      · simp only [hd] at hr; exact hr
      · simp only [hd] at hr; exact (List.mem_filter.mp hr).1
    rcases List.mem_append.mp hmem with h1 | h1
    · exact hinv r h1 o ho hk
    · rw [List.mem_singleton] at h1
      subst h1
      exact absurd hk (hrow o ho)
  · rw [h]
    intro r hr o ho hk
    rcases List.mem_append.mp hr with h1 | h1
    · rcases (mem_putObject _ _ _ _ _ _).mp ho with ⟨h2, _⟩ | h2
      · exact hinv r h1 o h2 hk
      · subst h2
        exact absurd (objectKey_injective _ _ _ hk).symm (hnorow r h1)
    · rw [List.mem_singleton] at h1
      subst h1
      rcases (mem_putObject _ _ _ _ _ _).mp ho with ⟨h2, _⟩ | h2
      · exact absurd hk (hrow o h2)
      · subst h2
        rfl

/-- An `UpdateFeedback` keeps the digest invariant unless its blob write
fails. -/
theorem update_keeps_hashes (s : Stores) (env : UpdateEnv) (req : proto.UpdateFeedbackRequest)
    (hinv : hashesAgree s) (hput : req.Content ≠ [] → env.uploadErr = none) :
    hashesAgree (FeedbackGRPCServer.UpdateFeedback s env req).stores := by
  rw [grpc_UpdateFeedback_stores]
  rcases UpdateFeedback_stores s env (updateParams req) with
    h | ⟨r0, hr0, ⟨hcase, h⟩ | ⟨hc, _, h⟩⟩
  · rw [h]; exact hinv
  · rw [h]
    have hc : req.Content = [] := by
      rcases hcase with h1 | h1
      · exact h1
      · by_contra hne
        exact h1 (hput hne)
    have hid := find_some_id s.db _ r0 hr0
    have hmem0 := List.mem_of_find?_eq_some hr0
    intro r hr o ho hk
    simp only [updatedTable, List.mem_map] at hr
    obtain ⟨x, hx, hxr⟩ := hr
    by_cases hxi : x.id = (updateParams req).ID
    · simp only [hxi, beq_self_eq_true, ↓reduceIte] at hxr
      subst hxr
      simp only [newHash, updateParams, hc, bne_self_eq_false, Bool.false_eq_true,
        ↓reduceIte] at hk ⊢
      have hid' : r0.id = req.Id := hid
      rw [← hid'] at hk
      exact hinv r0 hmem0 o ho hk
    · have hb : (x.id == (updateParams req).ID) = false := by simpa using hxi
      simp only [hb, Bool.false_eq_true, ↓reduceIte] at hxr
      subst hxr
      exact hinv x hx o ho hk
  · rw [h]
    have hc' : req.Content ≠ [] := hc
    intro r hr o ho hk
    simp only [updatedTable, List.mem_map] at hr
    obtain ⟨x, hx, hxr⟩ := hr
    by_cases hxi : x.id = (updateParams req).ID
    · simp only [hxi, beq_self_eq_true, ↓reduceIte] at hxr
      subst hxr
      simp only at hk
      rcases (mem_putObject _ _ _ _ _ _).mp ho with ⟨_, h2⟩ | h2
      · exact absurd hk h2
      · subst h2
        simp [newHash, updateParams, hc']
    · have hb : (x.id == (updateParams req).ID) = false := by simpa using hxi
      simp only [hb, Bool.false_eq_true, ↓reduceIte] at hxr
      subst hxr
      rcases (mem_putObject _ _ _ _ _ _).mp ho with ⟨h2, _⟩ | h2
      · exact hinv x hx o h2 hk
      · subst h2
        exact absurd (objectKey_injective _ _ _ hk).symm hxi

/-- A `DeleteFeedback` keeps the digest invariant, whatever fails. -/
theorem delete_keeps_hashes (s : Stores) (env : DeleteEnv) (id : String)
    (hinv : hashesAgree s) :
    hashesAgree (FeedbackGRPCServer.DeleteFeedback s env id).stores := by
  rw [grpc_DeleteFeedback_stores]
  obtain ⟨hdb, hbucket⟩ := DeleteFeedback_shrinks s env id
  intro r hr o ho hk
  exact hinv r (hdb r hr) o (hbucket o ho) hk

/-- On empty stores every identifier without `/` is fresh. -/
theorem freshUUID_empty (uuid : String) (h : '/' ∉ uuid.data) : freshUUID emptyStores uuid := by
  refine ⟨h, ?_, ?_⟩
  · intro r hr
    cases hr
  · intro o ho
    cases ho

/-- The digest invariant holds in every state reached without an update whose
blob write fails. -/
theorem hashesAgree_of_reachable (s : Stores) (h : Reachable noFailedUpdateWrite s) :
    hashesAgree s := by
  induction h with
  | empty =>
    intro r hr
    cases hr
  | step req _ hfresh hallowed ih =>
    cases req with
    | create env req => exact create_keeps_hashes _ env req ih hfresh
    | update env req => exact update_keeps_hashes _ env req ih hallowed
    | delete env id => exact delete_keeps_hashes _ env id ih

/-- C14 (counterexample): `CreateFeedback` of `doc-1` with body `hi` on empty
stores, every call succeeding, followed by an `UpdateFeedback` of `doc-1` with
content `new` whose relational update succeeds and whose blob write fails,
reaches a state in which the record and the body of `doc-1` both exist, the
record holds the digest of `new` and the stored body is still `hi`, whose
digest is another. -/
theorem stale_digest_after_failed_update_write :
    Reachable anyRequest ((Request.update updatePutFails contentOnly).run
      ((Request.create createAllOk sampleCreate).run emptyStores)) ∧
    (Request.update updatePutFails contentOnly).run
      ((Request.create createAllOk sampleCreate).run emptyStores) =
      { db := [{ id := "doc-1", user_id := 7, lab_id := 3, title := "notes",
                 content_hash := sprintfHex (sha256.Sum256 (ascii "new")),
                 created_at := 1000, updated_at := 3000 }],
        bucket := [{ Key := MinIOClient.objectKey "doc-1" "content.md", Data := [104, 105],
                     ContentType := "text/markdown", LastModified := 1001 }] } ∧
    sprintfHex (sha256.Sum256 (ascii "new")) ≠ sprintfHex (sha256.Sum256 [104, 105]) ∧
    ¬ hashesAgree ((Request.update updatePutFails contentOnly).run
      ((Request.create createAllOk sampleCreate).run emptyStores)) := by
  have hstate : (Request.update updatePutFails contentOnly).run
      ((Request.create createAllOk sampleCreate).run emptyStores) =
      { db := [{ id := "doc-1", user_id := 7, lab_id := 3, title := "notes",
                 content_hash := sprintfHex (sha256.Sum256 (ascii "new")),
                 created_at := 1000, updated_at := 3000 }],
        bucket := [{ Key := MinIOClient.objectKey "doc-1" "content.md", Data := [104, 105],
                     ContentType := "text/markdown", LastModified := 1001 }] } := rfl
  have hne : sprintfHex (sha256.Sum256 (ascii "new")) ≠ sprintfHex (sha256.Sum256 [104, 105]) := by
    decide!
  refine ⟨?_, hstate, hne, ?_⟩
  · refine Reachable.step (Request.update updatePutFails contentOnly)
      (Reachable.step (Request.create createAllOk sampleCreate) Reachable.empty ?_ trivial)
      trivial trivial
    exact freshUUID_empty _ (by decide)
  · intro hagree
    rw [hstate] at hagree
    simp only [hashesAgree, List.mem_singleton, forall_eq] at hagree
    exact hne (hagree trivial)

/-- C14 (amended): in every state reached from empty stores by gRPC
`CreateFeedback`, `UpdateFeedback` and `DeleteFeedback` requests, each create
drawing a fresh identifier and the backend calls failing in any way except
that no blob write of an update fails, every record whose body
`<id>/content.md` is in the bucket holds the SHA-256 hex digest of that
body. -/
theorem digest_matches_stored_body (s : Stores) (h : Reachable noFailedUpdateWrite s)
    (r : Row) (hr : r ∈ s.db) (o : StoredObject) (ho : o ∈ s.bucket)
    (hkey : o.Key = MinIOClient.objectKey r.id "content.md") :
    r.content_hash = sprintfHex (sha256.Sum256 o.Data) :=
  hashesAgree_of_reachable s h r hr o ho hkey

theorem digest_matches_stored_body_witness :
    Reachable noFailedUpdateWrite ((Request.update updateAllOk contentOnly).run
      ((Request.create createAllOk sampleCreate).run emptyStores)) ∧
    ({ id := "doc-1", user_id := 7, lab_id := 3, title := "notes",
       content_hash := sprintfHex (sha256.Sum256 (ascii "new")),
       created_at := 1000, updated_at := 3000 } : Row) ∈
      ((Request.update updateAllOk contentOnly).run
        ((Request.create createAllOk sampleCreate).run emptyStores)).db ∧
    ({ Key := "doc-1/content.md", Data := ascii "new", ContentType := "text/markdown",
       LastModified := 3001 } : StoredObject) ∈
      ((Request.update updateAllOk contentOnly).run
        ((Request.create createAllOk sampleCreate).run emptyStores)).bucket ∧
    sprintfHex (sha256.Sum256 (ascii "new")) = sprintfHex (sha256.Sum256 (ascii "new")) :=
  have hreach : Reachable noFailedUpdateWrite ((Request.update updateAllOk contentOnly).run
      ((Request.create createAllOk sampleCreate).run emptyStores)) :=
    Reachable.step (Request.update updateAllOk contentOnly)
      (Reachable.step (Request.create createAllOk sampleCreate) Reachable.empty
        (freshUUID_empty _ (by decide)) trivial)
      trivial (fun _ => rfl)
  ⟨hreach, List.mem_singleton.mpr rfl, List.mem_singleton.mpr rfl,
    digest_matches_stored_body _ hreach
      { id := "doc-1", user_id := 7, lab_id := 3, title := "notes",
        content_hash := sprintfHex (sha256.Sum256 (ascii "new")),
        created_at := 1000, updated_at := 3000 } (List.mem_singleton.mpr rfl)
      { Key := "doc-1/content.md", Data := ascii "new", ContentType := "text/markdown",
        LastModified := 3001 } (List.mem_singleton.mpr rfl) rfl⟩

/-! ## C15: a record and its body -/

/-- The key of the body of a document whose identifier has no `/` lies under
the key prefix of that document only. -/
theorem prefix_of_body_key (id0 u : String) (hu : '/' ∉ u.data)
    (h : startsWith (id0 ++ "/") (MinIOClient.objectKey u "content.md") = true) : id0 = u := by
  rw [startsWith_iff] at h
  obtain ⟨t, ht⟩ := h
  simp only [MinIOClient.objectKey, String.data_append, List.append_assoc] at ht
  have hbody : '/' ∉ ("content.md" : String).data := by decide
  rcases List.append_eq_append_iff.mp ht with ⟨a, ha, hb⟩ | ⟨c, hc, hd⟩
  · cases a with
    | nil =>
      rw [List.append_nil] at ha
      exact String.ext ha.symm
    | cons x a =>
      simp only [List.singleton_append, List.cons_append, List.cons.injEq] at hb
      exfalso
      apply hu
      rw [ha, ← hb.1]
      simp
  · cases c with
    | nil =>
      rw [List.append_nil] at hc
      exact String.ext hc
    | cons x c =>
      simp only [List.singleton_append, List.cons_append, List.cons.injEq] at hd
      exfalso
      apply hbody
      have h2 : ("content.md" : String).data = c ++ '/' :: ([] ++ t) := hd.2
      rw [h2]
      simp

/-- The stores after a `DeleteFeedback` in which the listing reports no error,
no removal is refused and the relational delete call does not fail. -/
theorem DeleteFeedback_clean (s : Stores) (env : DeleteEnv) (id : String)
    (hlist : env.listErrAfter = none) (hremove : ∀ key, env.removeErr key = none)
    (hdelete : env.deleteErr = none) :
    (FeedbackService.DeleteFeedback s env id).2.db = s.db.filter (fun x => !(x.id == id)) ∧
    ∀ o, o ∈ (FeedbackService.DeleteFeedback s env id).2.bucket ↔
      o ∈ s.bucket ∧ startsWith (id ++ "/") o.Key = false := by
  unfold FeedbackService.DeleteFeedback MinIOClient.DeleteFolder
  rw [hlist]
  obtain ⟨hnil, hmem⟩ := RemoveObjectsWithPrefix_clean s.bucket env.removeErr (id ++ "/") hremove
  cases hrm : MinIOClient.RemoveObjectsWithPrefix s.bucket none env.removeErr (id ++ "/") with
  | mk bucket rErr =>
    rw [hrm] at hnil hmem
    simp only at hnil hmem
    subst hnil
    simp only
    rcases Delete_db s.db env.deleteErr id with ⟨hne, _⟩ | ⟨_, hdb⟩
    · exact absurd hdelete hne
    · cases hdel : FeedbackRepository.Delete s.db env.deleteErr id with
      | mk db err =>
        rw [hdel] at hdb
        simp only at hdb
        subst hdb
        cases err <;> exact ⟨rfl, hmem⟩

/-- The `UPDATE` statement keeps the identifier of every row. -/
theorem updatedTable_ids (db : Table) (now : Time) (params : UpdateFeedbackParams) (r0 : Row) :
    (updatedTable db now params r0).map (fun r => r.id) = db.map (fun r => r.id) := by
  unfold updatedTable
  rw [List.map_map]
  apply List.map_congr_left
  intro x _
  simp only [Function.comp]
  split <;> rfl

/-- A record with the identifier exists exactly when the identifier is among
those of the table. -/
theorem exists_id_iff (db : Table) (id : String) :
    (∃ r ∈ db, r.id = id) ↔ id ∈ db.map (fun r => r.id) := by
  simp [List.mem_map]

/-- A `CreateFeedback` with a fresh identifier whose compensating delete does
not fail keeps the pairing of records and bodies. -/
theorem create_keeps_pairing (s : Stores) (env : CreateEnv) (req : proto.CreateFeedbackRequest)
    (hinv : idsWithoutSlash s ∧ recordIffBody s) (hfresh : freshUUID s env.uuid)
    (hclean : env.uploadErr ≠ none → env.deleteErr = none) :
    idsWithoutSlash (FeedbackGRPCServer.CreateFeedback s env req).stores ∧
      recordIffBody (FeedbackGRPCServer.CreateFeedback s env req).stores := by
  rw [grpc_CreateFeedback_stores]
  obtain ⟨hnoslash, hnorow, _⟩ := hfresh
  rcases CreateFeedback_stores s env (createParams req) with
    ⟨_, h⟩ | ⟨_, hany, hput, h⟩ | ⟨_, _, _, h⟩
  · rw [h]; exact hinv
  · rw [h]
    rcases Delete_db (s.db ++ [createdRow env (createParams req)]) env.deleteErr env.uuid with
      ⟨hne, _⟩ | ⟨_, hd⟩
    · exact absurd (hclean hput) hne
    · have hdb : (s.db ++ [createdRow env (createParams req)]).filter
          (fun x => !(x.id == env.uuid)) = s.db :=
        filter_append_fresh s.db (createdRow env (createParams req)) hany
      rw [hd, hdb]
      exact hinv
  · rw [h]
    constructor
    · intro r hr
      rcases List.mem_append.mp hr with h1 | h1
      · exact hinv.1 r h1
      · rw [List.mem_singleton] at h1
        subst h1
        exact hnoslash
    · intro id
      constructor
      · rintro ⟨r, hr, hid⟩
        rcases List.mem_append.mp hr with h1 | h1
        · obtain ⟨o, ho, hk⟩ := (hinv.2 id).mp ⟨r, h1, hid⟩
          refine ⟨o, (mem_putObject _ _ _ _ _ _).mpr (Or.inl ⟨ho, ?_⟩), hk⟩
          intro hk'
          rw [hk] at hk'
          have := objectKey_injective _ _ _ hk'
          exact hnorow r h1 (hid.trans this)
        · rw [List.mem_singleton] at h1
          subst h1
          refine ⟨_, (mem_putObject _ _ _ _ _ _).mpr (Or.inr rfl), ?_⟩
          rw [← hid]
          rfl
      · rintro ⟨o, ho, hk⟩
        rcases (mem_putObject _ _ _ _ _ _).mp ho with ⟨h2, _⟩ | h2
        · obtain ⟨r, hr, hid⟩ := (hinv.2 id).mpr ⟨o, h2, hk⟩
          exact ⟨r, List.mem_append_left _ hr, hid⟩
        · subst h2
          have := objectKey_injective _ _ _ hk
          exact ⟨createdRow env (createParams req), List.mem_append_right _
            (List.mem_singleton.mpr rfl), this⟩

/-- An `UpdateFeedback` keeps the pairing of records and bodies, whatever
fails. -/
theorem update_keeps_pairing (s : Stores) (env : UpdateEnv) (req : proto.UpdateFeedbackRequest)
    (hinv : idsWithoutSlash s ∧ recordIffBody s) :
    idsWithoutSlash (FeedbackGRPCServer.UpdateFeedback s env req).stores ∧
      recordIffBody (FeedbackGRPCServer.UpdateFeedback s env req).stores := by
  rw [grpc_UpdateFeedback_stores]
  have hids : ∀ r0, idsWithoutSlash
      { db := updatedTable s.db env.dbNow (updateParams req) r0, bucket := s.bucket } := by
    intro r0 r hr
    have h1 : r.id ∈ (updatedTable s.db env.dbNow (updateParams req) r0).map (fun r => r.id) :=
      List.mem_map.mpr ⟨r, hr, rfl⟩
    rw [updatedTable_ids] at h1
    obtain ⟨x, hx, hxid⟩ := List.mem_map.mp h1
    have := hinv.1 x hx
    rw [hxid] at this
    exact this
  have hrows : ∀ r0 id, (∃ r ∈ updatedTable s.db env.dbNow (updateParams req) r0, r.id = id) ↔
      ∃ r ∈ s.db, r.id = id := by
    intro r0 id
    rw [exists_id_iff, exists_id_iff, updatedTable_ids]
  rcases UpdateFeedback_stores s env (updateParams req) with
    h | ⟨r0, hr0, ⟨_, h⟩ | ⟨_, _, h⟩⟩
  · rw [h]; exact hinv
  · rw [h]
    refine ⟨hids r0, ?_⟩
    intro id
    exact (hrows r0 id).trans (hinv.2 id)
  · rw [h]
    refine ⟨hids r0, ?_⟩
    have hid := find_some_id s.db _ r0 hr0
    have hmem0 := List.mem_of_find?_eq_some hr0
    intro id
    refine (hrows r0 id).trans ?_
    constructor
    · rintro ⟨r, hr, hrid⟩
      by_cases hsame : id = (updateParams req).ID
      · refine ⟨_, (mem_putObject _ _ _ _ _ _).mpr (Or.inr rfl), ?_⟩
        rw [hsame]
      · obtain ⟨o, ho, hk⟩ := (hinv.2 id).mp ⟨r, hr, hrid⟩
        refine ⟨o, (mem_putObject _ _ _ _ _ _).mpr (Or.inl ⟨ho, ?_⟩), hk⟩
        intro hk'
        rw [hk] at hk'
        exact hsame (objectKey_injective _ _ _ hk')
    · rintro ⟨o, ho, hk⟩
      rcases (mem_putObject _ _ _ _ _ _).mp ho with ⟨h2, _⟩ | h2
      · exact (hinv.2 id).mpr ⟨o, h2, hk⟩
      · subst h2
        have := objectKey_injective _ _ _ hk
        exact ⟨r0, hmem0, hid.trans this⟩

/-- A `DeleteFeedback` in which no step fails keeps the pairing of records and
bodies. -/
theorem delete_keeps_pairing (s : Stores) (env : DeleteEnv) (id0 : String)
    (hinv : idsWithoutSlash s ∧ recordIffBody s)
    (hclean : env.listErrAfter = none ∧ (∀ key, env.removeErr key = none) ∧
      env.deleteErr = none) :
    idsWithoutSlash (FeedbackGRPCServer.DeleteFeedback s env id0).stores ∧
      recordIffBody (FeedbackGRPCServer.DeleteFeedback s env id0).stores := by
  rw [grpc_DeleteFeedback_stores]
  obtain ⟨hdb, hbucket⟩ := DeleteFeedback_clean s env id0 hclean.1 hclean.2.1 hclean.2.2
  constructor
  · intro r hr
    rw [hdb] at hr
    exact hinv.1 r (List.mem_filter.mp hr).1
  · intro id
    rw [hdb]
    constructor
    · rintro ⟨r, hr, hid⟩
      obtain ⟨hr1, hr2⟩ := List.mem_filter.mp hr
      obtain ⟨o, ho, hk⟩ := (hinv.2 id).mp ⟨r, hr1, hid⟩
      refine ⟨o, (hbucket o).mpr ⟨ho, ?_⟩, hk⟩
      cases hs : startsWith (id0 ++ "/") o.Key with
      | false => rfl
      | true =>
        rw [hk] at hs
        have hno := hinv.1 r hr1
        rw [hid] at hno
        have := prefix_of_body_key id0 id hno hs
        rw [hid, this] at hr2
        simp at hr2
    · rintro ⟨o, ho, hk⟩
      obtain ⟨ho1, ho2⟩ := (hbucket o).mp ho
      obtain ⟨r, hr, hid⟩ := (hinv.2 id).mpr ⟨o, ho1, hk⟩
      refine ⟨r, List.mem_filter.mpr ⟨hr, ?_⟩, hid⟩
      cases hb : r.id == id0 with
      | false => rfl
      | true =>
        have hri : r.id = id0 := by simpa using hb
        rw [hk, ← hid, hri, startsWith_objectKey] at ho2
        exact absurd ho2 (by simp)

/-- Without a failed cleanup, no record has a `/` in its identifier and a
record exists exactly when its body does. -/
theorem pairing_of_reachable (s : Stores) (h : Reachable noFailedCleanup s) :
    idsWithoutSlash s ∧ recordIffBody s := by
  induction h with
  | empty =>
    constructor
    · intro r hr
      cases hr
    · intro id
      constructor
      · rintro ⟨r, hr, _⟩
        cases hr
      · rintro ⟨o, ho, _⟩
        cases ho
  | step req _ hfresh hallowed ih =>
    cases req with
    | create env req => exact create_keeps_pairing _ env req ih hfresh hallowed
    | update env req => exact update_keeps_pairing _ env req ih
    | delete env id => exact delete_keeps_pairing _ env id ih hallowed

/-- C15 (counterexample): `CreateFeedback` of `doc-1` on empty stores, every
call succeeding, followed by a `DeleteFeedback` of `doc-1` whose blob deletion
succeeds and whose relational delete fails, returns an error and leaves the
record of `doc-1` in the table while no object `doc-1/content.md` is in the
bucket. -/
theorem record_without_body_after_failed_delete :
    Reachable anyRequest ((Request.delete deleteRelationalFails "doc-1").run
      ((Request.create createAllOk sampleCreate).run emptyStores)) ∧
    (FeedbackGRPCServer.DeleteFeedback ((Request.create createAllOk sampleCreate).run emptyStores)
      deleteRelationalFails "doc-1").result =
      .error (.wrapError "failed to delete feedback from database"
        (.errorString "connection refused")) ∧
    (Request.delete deleteRelationalFails "doc-1").run
      ((Request.create createAllOk sampleCreate).run emptyStores) =
      { db := [{ id := "doc-1", user_id := 7, lab_id := 3, title := "notes",
                 content_hash := sprintfHex (sha256.Sum256 [104, 105]),
                 created_at := 1000, updated_at := 1000 }],
        bucket := [] } ∧
    ¬ ((∃ r ∈ ((Request.delete deleteRelationalFails "doc-1").run
          ((Request.create createAllOk sampleCreate).run emptyStores)).db, r.id = "doc-1") ↔
       ∃ o ∈ ((Request.delete deleteRelationalFails "doc-1").run
          ((Request.create createAllOk sampleCreate).run emptyStores)).bucket,
         o.Key = MinIOClient.objectKey "doc-1" "content.md") := by
  have hstate : (Request.delete deleteRelationalFails "doc-1").run
      ((Request.create createAllOk sampleCreate).run emptyStores) =
      { db := [{ id := "doc-1", user_id := 7, lab_id := 3, title := "notes",
                 content_hash := sprintfHex (sha256.Sum256 [104, 105]),
                 created_at := 1000, updated_at := 1000 }],
        bucket := [] } := rfl
  refine ⟨?_, rfl, hstate, ?_⟩
  · exact Reachable.step (Request.delete deleteRelationalFails "doc-1")
      (Reachable.step (Request.create createAllOk sampleCreate) Reachable.empty
        (freshUUID_empty _ (by decide)) trivial)
      trivial trivial
  · rw [hstate]
    intro hiff
    obtain ⟨o, ho, _⟩ := hiff.mp ⟨_, List.mem_singleton.mpr rfl, rfl⟩
    cases ho

/-- C15 (amended): in every state reached from empty stores by gRPC
`CreateFeedback`, `UpdateFeedback` and `DeleteFeedback` calls that have
returned, with success or with an error, each create drawing a fresh
identifier and no cleanup step failing (the compensating delete of a create
whose blob write failed succeeds; in a delete the listing reports no error, no
removal is refused and the relational delete call does not fail), a record with
an identifier exists if and only if the object `<id>/content.md` exists. -/
theorem record_iff_body_without_failed_cleanup (s : Stores) (h : Reachable noFailedCleanup s)
    (id : String) :
    (∃ r ∈ s.db, r.id = id) ↔
      ∃ o ∈ s.bucket, o.Key = MinIOClient.objectKey id "content.md" :=
  (pairing_of_reachable s h).2 id

theorem record_iff_body_without_failed_cleanup_witness :
    Reachable noFailedCleanup ((Request.update updatePutFails contentOnly).run
      ((Request.create createAllOk sampleCreate).run emptyStores)) ∧
    ((∃ r ∈ ((Request.update updatePutFails contentOnly).run
          ((Request.create createAllOk sampleCreate).run emptyStores)).db, r.id = "doc-1") ↔
      ∃ o ∈ ((Request.update updatePutFails contentOnly).run
          ((Request.create createAllOk sampleCreate).run emptyStores)).bucket,
        o.Key = MinIOClient.objectKey "doc-1" "content.md") :=
  have hreach : Reachable noFailedCleanup ((Request.update updatePutFails contentOnly).run
      ((Request.create createAllOk sampleCreate).run emptyStores)) :=
    Reachable.step (Request.update updatePutFails contentOnly)
      (Reachable.step (Request.create createAllOk sampleCreate) Reachable.empty
        (freshUUID_empty _ (by decide)) (fun h => absurd rfl h))
      trivial trivial
  ⟨hreach, record_iff_body_without_failed_cleanup _ hreach "doc-1"⟩

/-! ## C21: the content a successful update returns -/

/-- A successful `UpdateFeedback` returns the record of the identifier with the
content of the parameters, empty or not, and leaves the bucket with the body
put only for a non-empty content. -/
theorem UpdateFeedback_ok_shape (s : Stores) (env : UpdateEnv) (params : UpdateFeedbackParams)
    (feedback : FeedbackFile)
    (hok : (FeedbackService.UpdateFeedback s env params).1 = .ok feedback) :
    feedback.Content = params.Content ∧
    (FeedbackService.UpdateFeedback s env params).2.bucket =
      updatedBucket s.bucket env.blobNow params := by
  unfold FeedbackService.UpdateFeedback FeedbackRepository.GetByID sqlSelectByID
    FeedbackRepository.Update sqlUpdate MinIOClient.UploadFile MinIOClient.PutObject at hok ⊢
  cases hq : env.queryErr with
  | some e => simp [hq] at hok
  | none =>
    cases hr : s.db.find? (fun x => x.id == params.ID) with
    | none => simp [hq, hr] at hok
    | some r =>
      have hid := find_some_id s.db params.ID r hr
      have hany := any_of_find_some s.db params.ID r hr
      cases hu : env.updateErr with
      | some e => simp [hq, hr, hu] at hok
      | none =>
        by_cases hc : params.Content = []
        · by_cases ht : params.Title = "" <;>
            simp [hq, hr, hu, hc, ht, hid, hany, FeedbackFile.zero, updatedBucket] at hok ⊢ <;>
            rw [← hok]
        · cases hp : env.uploadErr with
          | some e =>
            by_cases ht : params.Title = "" <;>
              simp [hq, hr, hu, hc, ht, hid, hany, hp, FeedbackFile.zero] at hok
          | none =>
            by_cases ht : params.Title = "" <;>
              simp [hq, hr, hu, hc, ht, hid, hany, hp, FeedbackFile.zero, updatedBucket]
                at hok ⊢ <;>
              rw [← hok]

/-- With an empty content `UpdateFeedback` does not look at the bucket: its
result is the same over any other bucket. -/
theorem UpdateFeedback_ignores_bucket (s : Stores) (env : UpdateEnv)
    (params : UpdateFeedbackParams) (bucket : Bucket) (hc : params.Content = []) :
    (FeedbackService.UpdateFeedback { db := s.db, bucket := bucket } env params).1 =
      (FeedbackService.UpdateFeedback s env params).1 := by
  unfold FeedbackService.UpdateFeedback
  simp only [hc, bne_self_eq_false, Bool.false_eq_true, ↓reduceIte]
  cases FeedbackRepository.GetByID s.db env.queryErr params.ID with
  | error e => rfl
  | ok f =>
    simp only
    split <;> rfl

/-- C21 (counterexample): `CreateFeedback` with an empty content on empty
stores succeeds and stores the empty body of `doc-1`; the title-only
`UpdateFeedback` of `doc-1` that follows succeeds, its content parameter is
empty, and the content it returns is the empty string, which is the body
stored under `doc-1/content.md`: the returned content equals the stored body
although no content was supplied. -/
theorem title_only_update_on_empty_body :
    (FeedbackGRPCServer.CreateFeedback emptyStores createAllOk emptyBodyCreate).result =
      .ok { Id := "doc-1", UserId := 7, LabId := 3, Title := "notes", Content := [],
            ContentHash := sprintfHex (sha256.Sum256 []), CreatedAt := 0, UpdatedAt := 0 } ∧
    (updateParams titleOnly).Content = [] ∧
    (FeedbackService.UpdateFeedback
        (FeedbackGRPCServer.CreateFeedback emptyStores createAllOk emptyBodyCreate).stores
        updateAllOk (updateParams titleOnly)).1 =
      .ok { ID := "doc-1", UserID := 7, LabID := 3, Title := "T", Content := [],
            ContentHash := sprintfHex (sha256.Sum256 []), CreatedAt := 1000,
            UpdatedAt := 3000 } ∧
    ((FeedbackService.UpdateFeedback
        (FeedbackGRPCServer.CreateFeedback emptyStores createAllOk emptyBodyCreate).stores
        updateAllOk (updateParams titleOnly)).2.bucket.lookup
          (MinIOClient.objectKey "doc-1" "content.md")).map (fun o => o.Data) = some [] :=
  ⟨rfl, rfl, rfl, rfl⟩

/-- C21 (amended): for every successful `UpdateFeedback`: when the content
parameter is empty (a title-only update), the returned record has the empty
content, the bucket is left as it was and the result is the same over any
other bucket, so the blob store is not read; when the content parameter is not
empty, the returned content is that content and it is the body stored after
the call.  Hence the returned content equals the stored body exactly when a
non-empty content was supplied or the stored body is itself empty. -/
theorem update_returns_supplied_content (s : Stores) (env : UpdateEnv)
    (params : UpdateFeedbackParams) (feedback : FeedbackFile)
    (hok : (FeedbackService.UpdateFeedback s env params).1 = .ok feedback) :
    (params.Content = [] →
      feedback.Content = [] ∧
      (FeedbackService.UpdateFeedback s env params).2.bucket = s.bucket ∧
      ∀ bucket, (FeedbackService.UpdateFeedback { db := s.db, bucket := bucket } env params).1 =
        .ok feedback) ∧
    (params.Content ≠ [] →
      feedback.Content = params.Content ∧
      ((FeedbackService.UpdateFeedback s env params).2.bucket.lookup
        (MinIOClient.objectKey params.ID "content.md")).map (fun o => o.Data) =
          some feedback.Content) ∧
    (∀ body,
      ((FeedbackService.UpdateFeedback s env params).2.bucket.lookup
        (MinIOClient.objectKey params.ID "content.md")).map (fun o => o.Data) = some body →
      (feedback.Content = body ↔ (params.Content ≠ [] ∨ body = []))) := by
  obtain ⟨hcontent, hbucket⟩ := UpdateFeedback_ok_shape s env params feedback hok
  refine ⟨?_, ?_, ?_⟩
  · intro hc
    refine ⟨hcontent.trans hc, ?_, ?_⟩
    · rw [hbucket]
      simp [updatedBucket, hc]
    · intro bucket
      rw [UpdateFeedback_ignores_bucket s env params bucket hc]
      exact hok
  · intro hc
    refine ⟨hcontent, ?_⟩
    rw [hbucket, hcontent]
    simp [updatedBucket, hc, lookup_putObject]
  · intro body hstored
    by_cases hc : params.Content = []
    · rw [hcontent, hc]
      constructor
      · intro h
        exact Or.inr h.symm
      · rintro (h | h)
        · exact absurd rfl h
        · exact h.symm
    · have hput : ((FeedbackService.UpdateFeedback s env params).2.bucket.lookup
          (MinIOClient.objectKey params.ID "content.md")).map (fun o => o.Data) =
          some params.Content := by
        rw [hbucket]
        simp [updatedBucket, hc, lookup_putObject]
      rw [hput] at hstored
      have hbody : params.Content = body := Option.some.inj hstored
      rw [hcontent]
      exact ⟨fun _ => Or.inl hc, fun _ => hbody⟩

/-- Witness of `update_returns_supplied_content`: the title-only update and
the content-only update of `doc-1`, whose stored body is `hi`. -/
theorem update_returns_supplied_content_witness :
    ((FeedbackService.UpdateFeedback oneDoc updateAllOk (updateParams titleOnly)).1 =
        .ok { ID := "doc-1", UserID := 7, LabID := 3, Title := "T", Content := [],
              ContentHash := oneDocRow.content_hash, CreatedAt := 1000, UpdatedAt := 3000 } ∧
     (FeedbackService.UpdateFeedback oneDoc updateAllOk (updateParams contentOnly)).1 =
        .ok { ID := "doc-1", UserID := 7, LabID := 3, Title := "notes", Content := ascii "new",
              ContentHash := sprintfHex (sha256.Sum256 (ascii "new")), CreatedAt := 1000,
              UpdatedAt := 3000 }) ∧
    ((oneDoc.bucket.lookup (MinIOClient.objectKey "doc-1" "content.md")).map (fun o => o.Data) =
        some [104, 105] ∧
     (FeedbackService.UpdateFeedback oneDoc updateAllOk (updateParams titleOnly)).2.bucket =
        oneDoc.bucket) ∧
    ((FeedbackService.UpdateFeedback oneDoc updateAllOk (updateParams contentOnly)).2.bucket.lookup
        (MinIOClient.objectKey "doc-1" "content.md")).map (fun o => o.Data) =
      some (ascii "new") :=
  ⟨⟨rfl, rfl⟩,
   ⟨by decide,
    ((update_returns_supplied_content oneDoc updateAllOk (updateParams titleOnly)
      { ID := "doc-1", UserID := 7, LabID := 3, Title := "T", Content := [],
        ContentHash := oneDocRow.content_hash, CreatedAt := 1000, UpdatedAt := 3000 }
      rfl).1 rfl).2.1⟩,
   ((update_returns_supplied_content oneDoc updateAllOk (updateParams contentOnly)
      { ID := "doc-1", UserID := 7, LabID := 3, Title := "notes", Content := ascii "new",
        ContentHash := sprintfHex (sha256.Sum256 (ascii "new")), CreatedAt := 1000,
        UpdatedAt := 3000 }
      rfl).2.1 (by decide)).2⟩

/-! ## C6: the listing error, in general -/

/-- Whenever the listing of the key prefix reports an error, after any number
of objects, and no removal is refused, `DeleteFeedback` goes on to the
relational delete: with that delete succeeding on an existing record it
returns `nil` and the record is gone from the table, although the prefix
deletion did not complete. -/
theorem DeleteFeedback_proceeds_on_listing_error (s : Stores) (env : DeleteEnv) (id : String)
    (n : Nat) (hlist : env.listErrAfter = some n) (hremove : ∀ key, env.removeErr key = none)
    (hdelete : env.deleteErr = none) (hrow : s.db.any (fun r => r.id == id) = true) :
    (FeedbackService.DeleteFeedback s env id).1 = none ∧
    (FeedbackService.DeleteFeedback s env id).2.db = s.db.filter (fun x => !(x.id == id)) := by
  have hfun : env.removeErr = fun _ => none := funext hremove
  have hnil := RemoveObjectsWithPrefix_nil_on_listing_error s.bucket n (id ++ "/")
  have hlen : ((s.db.filter (fun r => r.id == id)).length == 0) = false := by
    obtain ⟨r, hr, hrid⟩ := List.any_eq_true.mp hrow
    have hmem : r ∈ s.db.filter (fun r => r.id == id) := List.mem_filter.mpr ⟨hr, hrid⟩
    have hpos := List.length_pos_of_mem hmem
    simp only [beq_eq_false_iff_ne, ne_eq]
    omega
  unfold FeedbackService.DeleteFeedback MinIOClient.DeleteFolder
  rw [hlist, hfun]
  cases hrm : MinIOClient.RemoveObjectsWithPrefix s.bucket (some n) (fun _ => none)
      (id ++ "/") with
  | mk bucket rErr =>
    rw [hrm] at hnil
    simp only at hnil
    subst hnil
    simp only [FeedbackRepository.Delete, sqlDelete, hdelete, hlen, Bool.false_eq_true,
      ↓reduceIte, and_self]

end Feedback
